import Mathlib

/-!
# STS3x temperature sensor driver: protocol and codec layer

A shallow embedding of `src/STS3x.h` and `src/STS3x.cpp`.

Conventions of the embedding.

* Machine integers are natural numbers; every store into a `uint8_t`,
  `uint16_t` or `uint32_t` object is an explicit reduction modulo `2^8`,
  `2^16` or `2^32`.
* A C buffer (pointer plus length) is a list of bytes together with the
  length argument the source passes.  A read or write outside the list is
  undefined behaviour in C; the embedding returns `none` for it, so that a
  result `some _` also says that every memory access was in bounds.
* The bus and the delay primitives are external collaborators.  They are
  embedded as a scripted environment (`TwoWire`): the script fixes what the
  bus answers, and a trace records every call the driver makes, in order.
* `float` is IEEE-754 binary32 with round-to-nearest, ties-to-even, every
  operation evaluated in single precision (`Binary32`).
-/

/-! ## Enumerations and data (STS3x.h) -/

/-- Enumeration `MeasurementsPerSecond` (STS3x.h, lines 26-32). -/
inductive MeasurementsPerSecond
  | MPS_05
  | MPS_1
  | MPS_2
  | MPS_4
  | MPS_10
  deriving DecidableEq

/-- Enumerator values of `MeasurementsPerSecond`. -/
def MeasurementsPerSecond.toNat : MeasurementsPerSecond → Nat
  | MPS_05 => 0x20
  | MPS_1 => 0x21
  | MPS_2 => 0x22
  | MPS_4 => 0x23
  | MPS_10 => 0x27

/-- Enumeration `Repeatability` (STS3x.h, lines 34-38). -/
inductive Repeatability
  | REP_LOW
  | REP_MEDIUM
  | REP_HIGH
  deriving DecidableEq

/-- Record `SensorStatus` (STS3x.h, lines 40-47). -/
structure SensorStatus where
  checksumError : Bool
  commandError : Bool
  systemReset : Bool
  alertTemperature : Bool
  alertPending : Bool
  heaterEnabled : Bool
  deriving DecidableEq

/-! ## The external collaborators: bus and delays -/

/-- One call of the driver to an external collaborator. -/
inductive BusEvent
  | beginTransmission (address : Nat)
  | write (data : List Nat) (accepted : Nat)
  | endTransmission
  | requestFrom (address : Nat) (quantity : Nat)
  | readBytes (length : Nat) (count : Nat)
  | delayMicroseconds (us : Nat)
  | delay (ms : Nat)
  deriving DecidableEq

/-- Scripted environment standing for the `TwoWire` bus object (and the
delay primitives, which share its trace).

* `accepted`: for the successive `write` calls, how many bytes the bus is
  willing to take (the call returns the minimum of this and the number of
  bytes offered); once the script is exhausted every write is complete.
* `responses`: for the successive `requestFrom` calls, the bytes the device
  delivers; once the script is exhausted nothing is delivered.
* `rxBuffer`: bytes received by the last `requestFrom` and not yet read.
* `trace`: every call made so far, oldest first. -/
structure TwoWire where
  accepted : List Nat
  responses : List (List Nat)
  rxBuffer : List Nat
  trace : List BusEvent
  deriving DecidableEq

namespace TwoWire

/-- Bus call `beginTransmission(address)`. -/
def beginTransmission (w : TwoWire) (address : Nat) : TwoWire :=
  { w with trace := w.trace ++ [BusEvent.beginTransmission address] }

/-- Number of bytes the bus takes when the next `write` call offers `len`
bytes. -/
def taken (w : TwoWire) (len : Nat) : Nat :=
  match w.accepted with
  | [] => len
  | a :: _ => min a len

/-- Bus call `write(data, len)`: offers the first `len` bytes of `data` and
returns how many the bus took.  `none` when `data` holds fewer than `len`
bytes (the call would read past the buffer). -/
def write (w : TwoWire) (data : List Nat) (len : Nat) : Option (Nat × TwoWire) :=
  if data.length < len then none
  else
    some (w.taken len,
      { w with accepted := w.accepted.tail,
               trace := w.trace ++ [BusEvent.write (data.take len) (w.taken len)] })

/-- Bus call `endTransmission()`. -/
def endTransmission (w : TwoWire) : TwoWire :=
  { w with trace := w.trace ++ [BusEvent.endTransmission] }

/-- Bus call `requestFrom(address, quantity)`: the device delivers its next
scripted response, of which at most `quantity` bytes are received. -/
def requestFrom (w : TwoWire) (address : Nat) (quantity : Nat) : TwoWire :=
  { w with responses := w.responses.tail,
           rxBuffer := (w.responses.headD []).take quantity,
           trace := w.trace ++ [BusEvent.requestFrom address quantity] }

/-- Bus call `readBytes(buffer, length)`: moves up to `length` received
bytes to the front of `buffer` and returns their number.  `none` when more
bytes would be stored than `buffer` can hold. -/
def readBytes (w : TwoWire) (buffer : List Nat) (length : Nat) :
    Option (Nat × List Nat × TwoWire) :=
  let n := min length w.rxBuffer.length
  if buffer.length < n then none
  else
    some (n, w.rxBuffer.take n ++ buffer.drop n,
      { w with rxBuffer := w.rxBuffer.drop n,
               trace := w.trace ++ [BusEvent.readBytes length n] })

/-- Primitive `delayMicroseconds(us)`. -/
def delayMicroseconds (w : TwoWire) (us : Nat) : TwoWire :=
  { w with trace := w.trace ++ [BusEvent.delayMicroseconds us] }

/-- Primitive `delay(ms)`. -/
def delay (w : TwoWire) (ms : Nat) : TwoWire :=
  { w with trace := w.trace ++ [BusEvent.delay ms] }

end TwoWire

/-! ## The `float` type -/

/-- Values of IEEE-754 binary32, the `float` of the source: not-a-number,
the two infinities, and the finite values, held as the rational number
they denote (the two zeros are not told apart). -/
inductive Binary32
  | nan
  | inf (negative : Bool)
  | finite (q : ℚ)
  deriving DecidableEq

namespace Binary32

/-- Nearest integer, ties to the even one. -/
def roundHalfEven (x : ℚ) : ℤ :=
  if x - ⌊x⌋ < 1 / 2 then ⌊x⌋
  else if 1 / 2 < x - ⌊x⌋ then ⌊x⌋ + 1
  else if ⌊x⌋ % 2 = 0 then ⌊x⌋ else ⌊x⌋ + 1

/-- Rounding of an exact result to binary32, round to nearest, ties to even.
With `e = ⌊log2 |q|⌋`, the spacing of binary32 values around `q` is
`2 ^ (e - 23)` (24 significant bits), and `2 ^ (-149)` in the subnormal
range; a result that rounds to `2 ^ 128` or beyond overflows to infinity. -/
def ofRat (q : ℚ) : Binary32 :=
  if q = 0 then finite 0
  else
    let quantum : ℚ := 2 ^ max (Int.log 2 |q| - 23) (-149)
    let m : ℚ := roundHalfEven (q / quantum) * quantum
    if 2 ^ 128 ≤ |m| then inf (decide (q < 0)) else finite m

/-- Conversion of an unsigned integer to `float`. -/
def ofNat (n : Nat) : Binary32 := ofRat n

/-- Operation `x + y` on `float`. -/
def add : Binary32 → Binary32 → Binary32
  | finite a, finite b => ofRat (a + b)
  | finite _, inf t => inf t
  | inf s, finite _ => inf s
  | inf s, inf t => if s = t then inf s else nan
  | _, _ => nan

/-- Operation `-x` on `float`. -/
def neg : Binary32 → Binary32
  | finite a => finite (-a)
  | inf s => inf (!s)
  | nan => nan

/-- Operation `x - y` on `float`. -/
def sub (x y : Binary32) : Binary32 := add x (neg y)

/-- Operation `x * y` on `float`. -/
def mul : Binary32 → Binary32 → Binary32
  | finite a, finite b => ofRat (a * b)
  | finite a, inf t => if a = 0 then nan else inf (xor (decide (a < 0)) t)
  | inf s, finite b => if b = 0 then nan else inf (xor s (decide (b < 0)))
  | inf s, inf t => inf (xor s t)
  | _, _ => nan

/-- Operation `x / y` on `float` (a zero divisor counts as positive zero). -/
def div : Binary32 → Binary32 → Binary32
  | finite a, finite b =>
    if b = 0 then (if a = 0 then nan else inf (decide (a < 0))) else ofRat (a / b)
  | finite _, inf _ => finite 0
  | inf s, finite b => inf (xor s (decide (b < 0)))
  | _, _ => nan

/-- Conversion of a `float` to `uint16_t`: the fractional part is discarded
(truncation toward zero); when the truncated value is not a `uint16_t`
value the conversion is undefined in C, here `none`. -/
def toUInt16 : Binary32 → Option Nat
  | finite q =>
    let t : ℤ := if 0 ≤ q then ⌊q⌋ else -⌊-q⌋
    if 0 ≤ t ∧ t ≤ 65535 then some t.toNat else none
  | _ => none

end Binary32

/-- Driver object: the bus it talks to and the device address
(STS3x.h, lines 74-79). -/
structure STS3x where
  _pI2cBus : TwoWire
  _i2c_addr : Nat
  deriving DecidableEq

namespace STS3x

/-! ## Constants (STS3x.h, lines 81-107) -/

def CMD_SOFTRESET : Nat := 0x30A2
def CMD_BREAK : Nat := 0x3093
def CMD_HEATER_ENABLE : Nat := 0x306D
def CMD_HEATER_DISABLE : Nat := 0x3066
def CMD_READ_STATUS : Nat := 0xF32D
def CMD_CLEAR_STATUS : Nat := 0x3041
def CMD_READ_SERIAL : Nat := 0x3780
def CMD_MEASURE_HIGH_REAPEATABILITY : Nat := 0x2400
def CMD_MEASURE_MEDIUM_REAPEATABILITY : Nat := 0x240B
def CMD_MEASURE_LOW_REAPEATABILITY : Nat := 0x2416
def CMD_FETCH_PERIODIC_RESULT : Nat := 0xE000
def CMD_READ_ALERT_LIMIT_HIGH_SET : Nat := 0xE11F
def CMD_READ_ALERT_LIMIT_HIGH_CLEAR : Nat := 0xE114
def CMD_READ_ALERT_LIMIT_LOW_SET : Nat := 0xE102
def CMD_READ_ALERT_LIMIT_LOW_CLEAR : Nat := 0xE109
def CMD_WRITE_ALERT_LIMIT_HIGH_SET : Nat := 0x611D
def CMD_WRITE_ALERT_LIMIT_HIGH_CLEAR : Nat := 0x6116
def CMD_WRITE_ALERT_LIMIT_LOW_SET : Nat := 0x6100
def CMD_WRITE_ALERT_LIMIT_LOW_CLEAR : Nat := 0x610B
def OFFSET_ALERT_LIMIT_TEMPERATURE_LOW : Nat := 7
def OFFSET_ALERT_LIMIT_TEMPERATURE_HIGH : Nat := (OFFSET_ALERT_LIMIT_TEMPERATURE_LOW + 8) % 256
def STATUS_HEATER : Nat := (1 <<< (13 - 8)) % 256
def STATUS_ALERT_PENDING : Nat := (1 <<< (15 - 8)) % 256
def STATUS_ALERT_TEMPERATURE : Nat := (1 <<< (10 - 8)) % 256
def STATUS_SYSTEM_RESET : Nat := (1 <<< 4) % 256
def STATUS_COMMAND_ERROR : Nat := (1 <<< 1) % 256
def STATUS_CRC_ERROR : Nat := (1 <<< 0) % 256

/-! ## Checksum (STS3x.cpp, lines 22-39) -/

/-- Inner loop of `crc8`, `for (crcBit = 8; crcBit > 0; crcBit--)`: the
first argument is the loop counter, the second the `uint8_t` variable
`crc`. -/
def crc8BitLoop : Nat → Nat → Nat
  | 0, crc => crc
  | crcBit + 1, crc =>
    crc8BitLoop crcBit
      ((if crc &&& 0x80 ≠ 0 then (crc <<< 1) ^^^ 0x31 else crc <<< 1) % 256)

/-- Outer loop of `crc8`, `for (i = 0; i < len; i++)`: the first argument is
the number of iterations left (`len - i`), then `i` and `crc`.  Reading
`data[i]` outside `data` gives `none`. -/
def crc8ByteLoop (data : List Nat) : Nat → Nat → Nat → Option Nat
  | 0, _, crc => some crc
  | left + 1, i, crc =>
    match data[i]? with
    | none => none
    | some d => crc8ByteLoop data left (i + 1) (crc8BitLoop 8 ((crc ^^^ d) % 256))

/-- Function `STS3x::crc8(data, len)`. -/
def crc8 (data : List Nat) (len : Nat) : Option Nat :=
  crc8ByteLoop data len 0 0xFF

/-! ## Temperature conversion (STS3x.cpp, lines 41-47) -/

/-- Function `STS3x::convertToCelsius(value)`:
`(float)((uint32_t)value * 175) / 65535.0f - 45`. -/
def convertToCelsius (value : Nat) : Binary32 :=
  Binary32.sub
    (Binary32.div (Binary32.ofNat ((value * 175) % 2 ^ 32)) (Binary32.finite 65535))
    (Binary32.ofNat 45)

/-- Function `STS3x::convertToRaw(value)`:
`(value + 45.0f) * 65535.0f / 175.0f`, converted to `uint16_t`. -/
def convertToRaw (value : Binary32) : Option Nat :=
  Binary32.toUInt16
    (Binary32.div
      (Binary32.mul (Binary32.add value (Binary32.finite 45)) (Binary32.finite 65535))
      (Binary32.finite 175))

/-! ## Command framing (STS3x.cpp, lines 49-76) -/

/-- Method `STS3x::writeCommand(command, data, len)`; the defaults of the
source are `data = NULL` (here `[]`) and `len = 0`. -/
def writeCommand (self : STS3x) (command : Nat) (data : List Nat) (len : Nat) :
    Option (Bool × STS3x) := do
  let cmd : List Nat := [(command >>> 8) % 256, (command &&& 0xFF) % 256]
  let bus := self._pI2cBus.beginTransmission self._i2c_addr
  let (n, bus) ← bus.write cmd 2
  let result : Bool := n == 2
  let (result, bus) ←
    if len ≠ 0 then do
      let (m, bus) ← bus.write data len
      pure (result && (m == len), bus)
    else pure (result, bus)
  let bus := bus.endTransmission
  pure (result, { self with _pI2cBus := bus })

/-- Method `STS3x::queryCommand(command, result, len, delayus)`; the default
of the source is `delayus = 0`.  Returns the flag, the buffer `result` as it
is left, and the driver. -/
def queryCommand (self : STS3x) (command : Nat) (result : List Nat) (len : Nat)
    (delayus : Nat) : Option (Bool × List Nat × STS3x) := do
  let (_, self) ← self.writeCommand command [] 0
  let bus := self._pI2cBus.delayMicroseconds delayus
  let bus := bus.requestFrom self._i2c_addr len
  let (numberOfBytesread, result, bus) ← bus.readBytes result len
  let self := { self with _pI2cBus := bus }
  if numberOfBytesread ≠ len then
    pure (false, result, self)
  else
    -- `len - 1` is computed in `size_t`; for `len = 0` it wraps around and
    -- the access is far outside any buffer
    if len = 0 then none
    else
      let last ← result[len - 1]?
      let crc ← crc8 result (len - 1)
      if last ≠ crc then pure (false, result, self) else pure (true, result, self)

/-! ## Plain commands (STS3x.cpp, lines 78-123) -/

/-- Method `STS3x::stopConversion()`. -/
def stopConversion (self : STS3x) : Option STS3x := do
  let (_, self) ← self.writeCommand CMD_BREAK [] 0
  pure { self with _pI2cBus := self._pI2cBus.delay 1 }

/-- Method `STS3x::readStatus(status)`: returns the flag and the status
record written through the reference. -/
def readStatus (self : STS3x) : Option (Bool × SensorStatus × STS3x) := do
  let data : List Nat := [0, 0, 0]
  let (result, data, self) ← self.queryCommand CMD_READ_STATUS data 3 0
  let d0 ← data[0]?
  let d1 ← data[1]?
  let status : SensorStatus :=
    { checksumError := d1 &&& STATUS_CRC_ERROR ≠ 0
      commandError := d1 &&& STATUS_COMMAND_ERROR ≠ 0
      systemReset := d1 &&& STATUS_SYSTEM_RESET ≠ 0
      alertTemperature := d0 &&& STATUS_ALERT_TEMPERATURE ≠ 0
      heaterEnabled := d0 &&& STATUS_HEATER ≠ 0
      alertPending := d0 &&& STATUS_ALERT_PENDING ≠ 0 }
  pure (result, status, self)

/-- Method `STS3x::clearStatus()`. -/
def clearStatus (self : STS3x) : Option STS3x := do
  let (_, self) ← self.writeCommand CMD_CLEAR_STATUS [] 0
  pure { self with _pI2cBus := self._pI2cBus.delayMicroseconds 10 }

/-- Method `STS3x::readSerial()`.  The expression
`data[0] << 24 | data[1] << 16 | data[2] << 8 | data[3] << 0` is evaluated
in `int` (taken to be 32 bits wide) and converted to `uint32_t`. -/
def readSerial (self : STS3x) : Option (Nat × STS3x) := do
  let data : List Nat := [0, 0, 0, 0]
  let (_, data, self) ← self.queryCommand CMD_READ_SERIAL data 4 1000
  let d0 ← data[0]?
  let d1 ← data[1]?
  let d2 ← data[2]?
  let d3 ← data[3]?
  pure ((d0 <<< 24 ||| d1 <<< 16 ||| d2 <<< 8 ||| d3 <<< 0) % 2 ^ 32, self)

/-- Method `STS3x::reset()`. -/
def reset (self : STS3x) : Option STS3x := do
  let (_, self) ← self.writeCommand CMD_SOFTRESET [] 0
  pure { self with _pI2cBus := self._pI2cBus.delay 1 }

/-- Method `STS3x::setHeaterState(enable)`. -/
def setHeaterState (self : STS3x) (enable : Bool) : Option STS3x := do
  let (_, self) ←
    if enable then self.writeCommand CMD_HEATER_ENABLE [] 0
    else self.writeCommand CMD_HEATER_DISABLE [] 0
  pure { self with _pI2cBus := self._pI2cBus.delayMicroseconds 10 }

/-! ## Temperature reads (STS3x.cpp, lines 125-185) -/

/-- Method `bool STS3x::readTempRaw(uint16_t &value, repeatability)`: returns
the flag and the value written through the reference. -/
def readTempRaw (self : STS3x) (repeatability : Repeatability) :
    Option (Bool × Nat × STS3x) := do
  let data : List Nat := [0, 0, 0]
  let (result, data, self) ←
    match repeatability with
    | .REP_HIGH => self.queryCommand CMD_MEASURE_HIGH_REAPEATABILITY data 3 15000
    | .REP_MEDIUM => self.queryCommand CMD_MEASURE_MEDIUM_REAPEATABILITY data 3 6000
    | .REP_LOW => self.queryCommand CMD_MEASURE_LOW_REAPEATABILITY data 3 4000
  let d0 ← data[0]?
  let d1 ← data[1]?
  pure (result, (d0 <<< 8 ||| d1 <<< 0) % 2 ^ 16, self)

/-- Method `bool STS3x::fetchTempRaw(uint16_t &value)`: returns the flag and
the value written through the reference. -/
def fetchTempRaw (self : STS3x) : Option (Bool × Nat × STS3x) := do
  let data : List Nat := [0, 0, 0]
  let (result, data, self) ← self.queryCommand CMD_FETCH_PERIODIC_RESULT data 3 0
  let d0 ← data[0]?
  let d1 ← data[1]?
  pure (result, (d0 <<< 8 ||| d1 <<< 0) % 2 ^ 16, self)

/-- Method `STS3x::readTemp(repeatability)`. -/
def readTemp (self : STS3x) (repeatability : Repeatability) :
    Option (Binary32 × STS3x) := do
  let (ok, value, self) ← self.readTempRaw repeatability
  if ok then pure (convertToCelsius value, self)
  else pure (Binary32.nan, self)

/-- Method `STS3x::fetchTemp()`. -/
def fetchTemp (self : STS3x) : Option (Binary32 × STS3x) := do
  let (ok, value, self) ← self.fetchTempRaw
  if ok then pure (convertToCelsius value, self)
  else pure (Binary32.nan, self)

/-- Method `uint16_t STS3x::readTempRaw(repeatability)`, the overload that
returns the value and drops the flag. -/
def readTempRaw16 (self : STS3x) (repeatability : Repeatability) :
    Option (Nat × STS3x) := do
  let (_, value, self) ← self.readTempRaw repeatability
  pure (value, self)

/-- Method `uint16_t STS3x::fetchTempRaw()`, the overload that returns the
value and drops the flag. -/
def fetchTempRaw16 (self : STS3x) : Option (Nat × STS3x) := do
  let (_, value, self) ← self.fetchTempRaw
  pure (value, self)

/-! ## Periodic sampling (STS3x.cpp, lines 187-258) -/

/-- Method `STS3x::setContinousSampling(mps, rep)`. -/
def setContinousSampling (self : STS3x) (mps : MeasurementsPerSecond)
    (rep : Repeatability) : Option STS3x := do
  let cmd : Nat := (((mps.toNat % 256) <<< 8)) % 2 ^ 16
  let cmd : Nat :=
    match mps with
    | .MPS_05 =>
      match rep with
      | .REP_LOW => (cmd ||| 0x2F) % 2 ^ 16
      | .REP_MEDIUM => (cmd ||| 0x24) % 2 ^ 16
      | .REP_HIGH => (cmd ||| 0x32) % 2 ^ 16
    | .MPS_1 =>
      match rep with
      | .REP_LOW => (cmd ||| 0x2D) % 2 ^ 16
      | .REP_MEDIUM => (cmd ||| 0x26) % 2 ^ 16
      | .REP_HIGH => (cmd ||| 0x30) % 2 ^ 16
    | .MPS_2 =>
      match rep with
      | .REP_LOW => (cmd ||| 0x2B) % 2 ^ 16
      | .REP_MEDIUM => (cmd ||| 0x20) % 2 ^ 16
      | .REP_HIGH => (cmd ||| 0x36) % 2 ^ 16
    | .MPS_4 =>
      match rep with
      | .REP_LOW => (cmd ||| 0x29) % 2 ^ 16
      | .REP_MEDIUM => (cmd ||| 0x22) % 2 ^ 16
      | .REP_HIGH => (cmd ||| 0x34) % 2 ^ 16
    | .MPS_10 =>
      match rep with
      | .REP_LOW => (cmd ||| 0x2A) % 2 ^ 16
      | .REP_MEDIUM => (cmd ||| 0x21) % 2 ^ 16
      | .REP_HIGH => (cmd ||| 0x37) % 2 ^ 16
  let (_, self) ← self.writeCommand cmd [] 0
  pure self

/-! ## Alert limits (STS3x.cpp, lines 260-322) -/

/-- Method `STS3x::readAlertLimitsHigh(set, clear)`.  The argument `clear`
is the value the caller's variable holds on entry (that of `set` is never
read: `set` is assigned before any use); the result carries the values of
`set` and `clear` on return. -/
def readAlertLimitsHigh (self : STS3x) (clear : Nat) :
    Option (Bool × Nat × Nat × STS3x) := do
  let data : List Nat := [0, 0, 0]
  let (result, data, self) ← self.queryCommand CMD_READ_ALERT_LIMIT_HIGH_SET data 3 0
  let d0 ← data[0]?
  let d1 ← data[1]?
  let set : Nat := (d0 <<< OFFSET_ALERT_LIMIT_TEMPERATURE_HIGH |||
    d1 <<< OFFSET_ALERT_LIMIT_TEMPERATURE_LOW) % 2 ^ 16
  if !result then
    pure (false, set, clear, self)
  else
    let (result, data, self) ← self.queryCommand CMD_READ_ALERT_LIMIT_HIGH_CLEAR data 3 0
    let d0 ← data[0]?
    let d1 ← data[1]?
    let clear : Nat := (d0 <<< OFFSET_ALERT_LIMIT_TEMPERATURE_HIGH |||
      d1 <<< OFFSET_ALERT_LIMIT_TEMPERATURE_LOW) % 2 ^ 16
    pure (result, set, clear, self)

/-- Method `STS3x::setAlertLimitsHigh(set, clear)`. -/
def setAlertLimitsHigh (self : STS3x) (set clear : Nat) : Option (Bool × STS3x) := do
  let data : List Nat :=
    [(set >>> OFFSET_ALERT_LIMIT_TEMPERATURE_HIGH) % 256,
     (set >>> OFFSET_ALERT_LIMIT_TEMPERATURE_LOW) % 256]
  let (result, self) ← self.writeCommand CMD_WRITE_ALERT_LIMIT_HIGH_SET data 2
  if !result then
    pure (false, self)
  else
    let data : List Nat :=
      [(clear >>> OFFSET_ALERT_LIMIT_TEMPERATURE_HIGH) % 256,
       (clear >>> OFFSET_ALERT_LIMIT_TEMPERATURE_LOW) % 256]
    let (result, self) ← self.writeCommand CMD_WRITE_ALERT_LIMIT_HIGH_CLEAR data 2
    pure (result, self)

/-- Method `STS3x::readAlertLimitsLow(set, clear)`; argument and result as
for `readAlertLimitsHigh`. -/
def readAlertLimitsLow (self : STS3x) (clear : Nat) :
    Option (Bool × Nat × Nat × STS3x) := do
  let data : List Nat := [0, 0, 0]
  let (result, data, self) ← self.queryCommand CMD_READ_ALERT_LIMIT_LOW_SET data 3 0
  let d0 ← data[0]?
  let d1 ← data[1]?
  let set : Nat := (d0 <<< OFFSET_ALERT_LIMIT_TEMPERATURE_HIGH |||
    d1 <<< OFFSET_ALERT_LIMIT_TEMPERATURE_LOW) % 2 ^ 16
  if !result then
    pure (false, set, clear, self)
  else
    let (result, data, self) ← self.queryCommand CMD_READ_ALERT_LIMIT_LOW_CLEAR data 3 0
    let d0 ← data[0]?
    let d1 ← data[1]?
    let clear : Nat := (d0 <<< OFFSET_ALERT_LIMIT_TEMPERATURE_HIGH |||
      d1 <<< OFFSET_ALERT_LIMIT_TEMPERATURE_LOW) % 2 ^ 16
    pure (result, set, clear, self)

/-- Method `STS3x::setAlertLimitsLow(set, clear)`. -/
def setAlertLimitsLow (self : STS3x) (set clear : Nat) : Option (Bool × STS3x) := do
  let data : List Nat :=
    [(set >>> OFFSET_ALERT_LIMIT_TEMPERATURE_HIGH) % 256,
     (set >>> OFFSET_ALERT_LIMIT_TEMPERATURE_LOW) % 256]
  let (result, self) ← self.writeCommand CMD_WRITE_ALERT_LIMIT_LOW_SET data 2
  if !result then
    pure (false, self)
  else
    let data : List Nat :=
      [(clear >>> OFFSET_ALERT_LIMIT_TEMPERATURE_HIGH) % 256,
       (clear >>> OFFSET_ALERT_LIMIT_TEMPERATURE_LOW) % 256]
    let (result, self) ← self.writeCommand CMD_WRITE_ALERT_LIMIT_LOW_CLEAR data 2
    pure (result, self)

/-! ## Vocabulary of the properties -/

/-- Driver after one `writeCommand(command)` without payload: the bus has
consumed one entry of its write script and the trace has grown by the
transaction `beginTransmission`, `write` of the two command bytes,
`endTransmission`. -/
def afterCommand (self : STS3x) (command : Nat) : STS3x :=
  { _i2c_addr := self._i2c_addr,
    _pI2cBus :=
      { accepted := self._pI2cBus.accepted.tail,
        responses := self._pI2cBus.responses,
        rxBuffer := self._pI2cBus.rxBuffer,
        trace := self._pI2cBus.trace ++
          [BusEvent.beginTransmission self._i2c_addr,
           BusEvent.write [(command >>> 8) % 256, (command &&& 0xFF) % 256]
             (self._pI2cBus.taken 2),
           BusEvent.endTransmission] } }

/-- Driver after one `writeCommand(command, data, len)` with a payload
(`len = data.length`, not zero): the bus has consumed two entries of its
write script and the trace has grown by the transaction `beginTransmission`,
`write` of the two command bytes, `write` of the payload,
`endTransmission`. -/
def afterCommandData (self : STS3x) (command : Nat) (data : List Nat) : STS3x :=
  { _i2c_addr := self._i2c_addr,
    _pI2cBus :=
      { accepted := self._pI2cBus.accepted.tail.tail,
        responses := self._pI2cBus.responses,
        rxBuffer := self._pI2cBus.rxBuffer,
        trace := self._pI2cBus.trace ++
          [BusEvent.beginTransmission self._i2c_addr,
           BusEvent.write [(command >>> 8) % 256, (command &&& 0xFF) % 256]
             (self._pI2cBus.taken 2),
           BusEvent.write data
             (({ self._pI2cBus with accepted := self._pI2cBus.accepted.tail } : TwoWire).taken
               data.length),
           BusEvent.endTransmission] } }

/-- Flag returned by `writeCommand(command, data, len)` with a payload
(`len = data.length`, not zero): both writes were taken in full. -/
def commandDataOk (self : STS3x) (data : List Nat) : Bool :=
  (self._pI2cBus.taken 2 == 2) &&
    (({ self._pI2cBus with accepted := self._pI2cBus.accepted.tail } : TwoWire).taken
      data.length == data.length)

/-- Driver after one `queryCommand(command, _, len, delayus)`: as after the
command, then the delay, the request for `len` bytes, which consumes the
next scripted response, and the read of what was received. -/
def afterQuery (self : STS3x) (command len delayus : Nat) : STS3x :=
  { _i2c_addr := self._i2c_addr,
    _pI2cBus :=
      { accepted := self._pI2cBus.accepted.tail,
        responses := self._pI2cBus.responses.tail,
        rxBuffer := [],
        trace := (afterCommand self command)._pI2cBus.trace ++
          [BusEvent.delayMicroseconds delayus,
           BusEvent.requestFrom self._i2c_addr len,
           BusEvent.readBytes len (min len (self._pI2cBus.responses.headD []).length)] } }

/-- A response `r` passes the validation of a read of `len` bytes: `len`
bytes arrived and byte `len - 1` is the checksum of the bytes before it. -/
def frameValid (r : List Nat) (len : Nat) : Bool :=
  decide (len ≤ r.length ∧ crc8 r (len - 1) = r[len - 1]?)

/-! ### The checksum as the specification words it (section 4.2) -/

/-- One round: "if top bit set, shift left and XOR 0x31, else shift left",
modulo 256. -/
def crc8SpecRound (state : Nat) : Nat :=
  if state.testBit 7 then ((state <<< 1) ^^^ 0x31) % 256 else (state <<< 1) % 256

/-- One byte: "state is XORed with the input byte, then 8 rounds". -/
def crc8SpecByte (state byte : Nat) : Nat :=
  crc8SpecRound^[8] ((state ^^^ byte) % 256)

/-- CRC-8, polynomial 0x31, initial value 0xFF, no reflection, no final XOR. -/
def crc8Spec (bytes : List Nat) : Nat :=
  bytes.foldl crc8SpecByte 0xFF

/-- Inverse of one round on byte values: the low bit of the result of a
round tells whether the polynomial was XORed in. -/
def crc8SpecRoundInv (state : Nat) : Nat :=
  if state % 2 = 1 then ((state ^^^ 0x31) >>> 1) ||| 0x80 else state >>> 1

/-- Low byte of the periodic-sampling command as the datasheet lists it, by
measurements per second and repeatability (the fixed 5×3 table of the
specification, section 4.4). -/
def datasheetSuffix : MeasurementsPerSecond → Repeatability → Nat
  | .MPS_05, .REP_LOW => 0x2F
  | .MPS_05, .REP_MEDIUM => 0x24
  | .MPS_05, .REP_HIGH => 0x32
  | .MPS_1, .REP_LOW => 0x2D
  | .MPS_1, .REP_MEDIUM => 0x26
  | .MPS_1, .REP_HIGH => 0x30
  | .MPS_2, .REP_LOW => 0x2B
  | .MPS_2, .REP_MEDIUM => 0x20
  | .MPS_2, .REP_HIGH => 0x36
  | .MPS_4, .REP_LOW => 0x29
  | .MPS_4, .REP_MEDIUM => 0x22
  | .MPS_4, .REP_HIGH => 0x34
  | .MPS_10, .REP_LOW => 0x2A
  | .MPS_10, .REP_MEDIUM => 0x21
  | .MPS_10, .REP_HIGH => 0x37

/-- Temperature formula of the specification (section 4.3),
`rawToCelsius(v) = v * 175 / 65535 - 45`, in exact rational arithmetic. -/
def rawToCelsiusExact (v : Nat) : ℚ := (v : ℚ) * 175 / 65535 - 45

/-- Inverse formula of the specification (section 4.3),
`celsiusToRaw(c) = (c + 45) * 65535 / 175`, in exact rational arithmetic,
the result truncated toward zero. -/
def celsiusToRawExact (c : ℚ) : ℤ :=
  if 0 ≤ (c + 45) * 65535 / 175 then ⌊(c + 45) * 65535 / 175⌋
  else -⌊-((c + 45) * 65535 / 175)⌋

/-! # Properties -/

/-! ## Bits -/

theorem and_two_pow_ne_zero_iff (x k : Nat) : x &&& 2 ^ k ≠ 0 ↔ x.testBit k = true := by
  constructor
  · intro h
    by_contra hb
    apply h
    apply Nat.eq_of_testBit_eq
    intro i
    rw [Nat.testBit_and, Nat.testBit_two_pow, Nat.zero_testBit]
    by_cases hik : k = i
    · subst hik
      simp [Bool.not_eq_true _ ▸ hb]
    · simp [hik]
  · intro hb h
    have h1 : (x &&& 2 ^ k).testBit k = true := by
      rw [Nat.testBit_and, Nat.testBit_two_pow_self, hb]; rfl
    rw [h] at h1
    simp at h1

/-! ## Checksum -/

theorem crc8BitLoop_eq (n crc : Nat) : crc8BitLoop n crc = crc8SpecRound^[n] crc := by
  induction n generalizing crc with
  | zero => rfl
  | succ n ih =>
    rw [crc8BitLoop, ih, Function.iterate_succ_apply]
    congr 1
    unfold crc8SpecRound
    have h : crc &&& 0x80 ≠ 0 ↔ crc.testBit 7 = true := and_two_pow_ne_zero_iff crc 7
    by_cases hb : crc.testBit 7 = true
    · rw [if_pos hb, if_pos (h.mpr hb)]
    · rw [if_neg hb, if_neg (fun hc => hb (h.mp hc))]

theorem crc8ByteLoop_eq (data : List Nat) (left i crc : Nat) (h : i + left ≤ data.length) :
    crc8ByteLoop data left i crc
      = some (((data.drop i).take left).foldl crc8SpecByte crc) := by
  induction left generalizing i crc with
  | zero => simp [crc8ByteLoop]
  | succ left ih =>
    have hi : i < data.length := by omega
    rw [crc8ByteLoop, List.getElem?_eq_getElem hi]
    simp only []
    rw [ih (i + 1) _ (by omega), List.drop_eq_getElem_cons hi, List.take_succ_cons,
      List.foldl_cons, crc8BitLoop_eq]
    rfl

theorem crc8_eq_spec_take (data : List Nat) (len : Nat) (h : len ≤ data.length) :
    crc8 data len = some (crc8Spec (data.take len)) := by
  rw [crc8, crc8ByteLoop_eq data len 0 0xFF (by omega)]
  rfl

/-! ## Command framing -/

theorem writeCommand_nil (self : STS3x) (command : Nat) :
    writeCommand self command [] 0
      = some (self._pI2cBus.taken 2 == 2, afterCommand self command) := by
  simp [writeCommand, afterCommand, TwoWire.write, TwoWire.beginTransmission,
    TwoWire.endTransmission, TwoWire.taken, bind, Option.bind, pure]

theorem writeCommand_data (self : STS3x) (command : Nat) (data : List Nat)
    (hdata : data ≠ []) :
    writeCommand self command data data.length
      = some (commandDataOk self data, afterCommandData self command data) := by
  have hlen : data.length ≠ 0 := fun h => hdata (List.length_eq_zero.mp h)
  simp [writeCommand, afterCommandData, commandDataOk, TwoWire.write, TwoWire.taken,
    TwoWire.beginTransmission, TwoWire.endTransmission, bind, Option.bind, pure, hlen]

theorem queryCommand_eq (self : STS3x) (command : Nat) (result : List Nat) (len delayus : Nat)
    (hlen : 1 ≤ len) (hbuf : len ≤ result.length) :
    queryCommand self command result len delayus =
      some (frameValid (self._pI2cBus.responses.headD []) len,
        (self._pI2cBus.responses.headD []).take len
          ++ result.drop (min len (self._pI2cBus.responses.headD []).length),
        afterQuery self command len delayus) := by
  unfold frameValid afterQuery
  generalize hr : self._pI2cBus.responses.headD [] = r
  rw [queryCommand, writeCommand_nil]
  simp only [afterCommand, bind, Option.bind, TwoWire.delayMicroseconds, TwoWire.requestFrom,
    TwoWire.readBytes, hr, List.length_take, pure]
  have hmin : min len (min len r.length) = min len r.length := by omega
  rw [hmin, if_neg (by omega)]
  simp only []
  by_cases hshort : len ≤ r.length
  · have hm : min len r.length = len := by omega
    have hlt : len - 1 < r.length := by omega
    simp only [hm, ne_eq, not_true_eq_false, if_false, if_neg (show ¬ len = 0 by omega)]
    have hlast : (List.take len (List.take len r) ++ List.drop len result)[len - 1]?
        = some r[len - 1] := by
      rw [List.take_take, min_self, List.getElem?_append_left (by simp; omega),
        List.getElem?_take, if_pos (by omega), List.getElem?_eq_getElem]
    have hcrc : crc8 (List.take len (List.take len r) ++ List.drop len result) (len - 1)
        = crc8 r (len - 1) := by
      rw [crc8_eq_spec_take _ _ (by simp; omega), crc8_eq_spec_take _ _ (by omega),
        List.take_take, min_self, List.take_append_of_le_length (by simp; omega),
        List.take_take]
      congr 3
      omega
    rw [hlast, hcrc]
    obtain ⟨c, hc⟩ : ∃ c, crc8 r (len - 1) = some c :=
      ⟨_, crc8_eq_spec_take _ _ (by omega)⟩
    rw [hc, List.getElem?_eq_getElem hlt]
    simp only [List.take_take, min_self, List.drop_take, Nat.sub_self, List.take_zero,
      List.append_assoc, List.singleton_append, List.cons_append, List.nil_append]
    by_cases heq : r[len - 1] = c
    · simp [heq, hshort]
    · have heq2 : ¬ c = r[len - 1] := fun h => heq h.symm
      simp [heq, heq2, hshort]
  · have hm : min len r.length = r.length := by omega
    have hne : r.length ≠ len := by omega
    simp [hm, hne, hshort, List.take_of_length_le (show r.length ≤ len by omega)]

/-- After a read into a zero-initialised buffer of `k` bytes, byte `i` of
the buffer is byte `i` of the response, or zero where the response ended
before it. -/
theorem zeroBuffer_get (r : List Nat) (k i : Nat) (hi : i < k) :
    (r.take k ++ (List.replicate k 0).drop (min k r.length))[i]? = some (r.getD i 0) := by
  by_cases h : i < r.length
  · rw [List.getElem?_append_left (by simp; omega), List.getElem?_take, if_pos hi,
      List.getElem?_eq_getElem h, List.getD_eq_getElem _ _ h]
  · rw [List.getElem?_append_right (by simp; omega), List.getD_eq_default _ _ (by omega)]
    simp only [List.length_take, List.drop_replicate, List.getElem?_replicate]
    rw [if_pos (by omega)]

theorem zeroBuffer3_get (r : List Nat) (i : Nat) (hi : i < 3) :
    (r.take 3 ++ [0, 0, 0].drop (min 3 r.length))[i]? = some (r.getD i 0) :=
  zeroBuffer_get r 3 i hi

theorem zeroBuffer4_get (r : List Nat) (i : Nat) (hi : i < 4) :
    (r.take 4 ++ [0, 0, 0, 0].drop (min 4 r.length))[i]? = some (r.getD i 0) :=
  zeroBuffer_get r 4 i hi

/-! ## The reads built on `queryCommand` -/

theorem readStatus_eq (self : STS3x) (r : List Nat)
    (hr : self._pI2cBus.responses.headD [] = r) :
    readStatus self =
      some (frameValid r 3,
        { checksumError := decide (r.getD 1 0 &&& STATUS_CRC_ERROR ≠ 0)
          commandError := decide (r.getD 1 0 &&& STATUS_COMMAND_ERROR ≠ 0)
          systemReset := decide (r.getD 1 0 &&& STATUS_SYSTEM_RESET ≠ 0)
          alertTemperature := decide (r.getD 0 0 &&& STATUS_ALERT_TEMPERATURE ≠ 0)
          heaterEnabled := decide (r.getD 0 0 &&& STATUS_HEATER ≠ 0)
          alertPending := decide (r.getD 0 0 &&& STATUS_ALERT_PENDING ≠ 0) },
        afterQuery self CMD_READ_STATUS 3 0) := by
  rw [readStatus, queryCommand_eq self _ _ 3 0 (by decide) (by decide), hr]
  simp only [bind, Option.bind, zeroBuffer3_get r 0 (by decide),
    zeroBuffer3_get r 1 (by decide), pure]

theorem readTempRaw_eq (self : STS3x) (repeatability : Repeatability) (r : List Nat)
    (hr : self._pI2cBus.responses.headD [] = r) :
    readTempRaw self repeatability =
      some (frameValid r 3, (r.getD 0 0 <<< 8 ||| r.getD 1 0 <<< 0) % 2 ^ 16,
        match repeatability with
        | .REP_HIGH => afterQuery self CMD_MEASURE_HIGH_REAPEATABILITY 3 15000
        | .REP_MEDIUM => afterQuery self CMD_MEASURE_MEDIUM_REAPEATABILITY 3 6000
        | .REP_LOW => afterQuery self CMD_MEASURE_LOW_REAPEATABILITY 3 4000) := by
  cases repeatability <;>
  · rw [readTempRaw]
    simp only []
    rw [queryCommand_eq self _ _ 3 _ (by decide) (by decide), hr]
    simp only [bind, Option.bind, zeroBuffer3_get r 0 (by decide),
      zeroBuffer3_get r 1 (by decide), pure]

theorem fetchTempRaw_eq (self : STS3x) (r : List Nat)
    (hr : self._pI2cBus.responses.headD [] = r) :
    fetchTempRaw self =
      some (frameValid r 3, (r.getD 0 0 <<< 8 ||| r.getD 1 0 <<< 0) % 2 ^ 16,
        afterQuery self CMD_FETCH_PERIODIC_RESULT 3 0) := by
  rw [fetchTempRaw, queryCommand_eq self _ _ 3 0 (by decide) (by decide), hr]
  simp only [bind, Option.bind, zeroBuffer3_get r 0 (by decide),
    zeroBuffer3_get r 1 (by decide), pure]

theorem readSerial_eq (self : STS3x) (r : List Nat)
    (hr : self._pI2cBus.responses.headD [] = r) :
    readSerial self =
      some ((r.getD 0 0 <<< 24 ||| r.getD 1 0 <<< 16 ||| r.getD 2 0 <<< 8 ||| r.getD 3 0 <<< 0)
          % 2 ^ 32,
        afterQuery self CMD_READ_SERIAL 4 1000) := by
  rw [readSerial, queryCommand_eq self _ _ 4 1000 (by decide) (by decide), hr]
  simp only [bind, Option.bind, zeroBuffer4_get r 0 (by decide),
    zeroBuffer4_get r 1 (by decide), zeroBuffer4_get r 2 (by decide),
    zeroBuffer4_get r 3 (by decide), pure]

/-- After a read into a buffer `b` of `k` bytes, byte `i` of the buffer is
byte `i` of the response, or what `b` held where the response ended before
it. -/
theorem readBuffer_get (r b : List Nat) (k i : Nat) (hb : b.length = k) (hi : i < k) :
    (r.take k ++ b.drop (min k r.length))[i]? = some (r.getD i (b.getD i 0)) := by
  by_cases h : i < r.length
  · rw [List.getElem?_append_left (by simp; omega), List.getElem?_take, if_pos hi,
      List.getElem?_eq_getElem h, List.getD_eq_getElem _ _ h]
  · rw [List.getElem?_append_right (by simp; omega), List.getD_eq_default _ _ (by omega)]
    simp only [List.length_take, List.getElem?_drop]
    have hidx : min k r.length + (i - min k r.length) = i := by omega
    rw [hidx, List.getElem?_eq_getElem (by omega), List.getD_eq_getElem _ _ (by omega)]

theorem zeroBuffer3_length (r : List Nat) :
    (r.take 3 ++ [0, 0, 0].drop (min 3 r.length)).length = 3 := by
  simp only [List.length_append, List.length_take, List.length_drop, List.length_cons,
    List.length_nil]
  omega

theorem zeroBuffer3_getD (r : List Nat) (i : Nat) (hi : i < 3) :
    (r.take 3 ++ [0, 0, 0].drop (min 3 r.length)).getD i 0 = r.getD i 0 := by
  rw [List.getD_eq_getElem?_getD, zeroBuffer3_get r i hi, Option.getD_some]

theorem readAlertLimitsHigh_eq (self : STS3x) (clear : Nat) (r1 r2 : List Nat)
    (hr1 : self._pI2cBus.responses.headD [] = r1)
    (hr2 : self._pI2cBus.responses.tail.headD [] = r2) :
    readAlertLimitsHigh self clear =
      some (if frameValid r1 3 then
          (frameValid r2 3,
           (r1.getD 0 0 <<< 15 ||| r1.getD 1 0 <<< 7) % 2 ^ 16,
           (r2.getD 0 (r1.getD 0 0) <<< 15 ||| r2.getD 1 (r1.getD 1 0) <<< 7) % 2 ^ 16,
           afterQuery (afterQuery self CMD_READ_ALERT_LIMIT_HIGH_SET 3 0)
             CMD_READ_ALERT_LIMIT_HIGH_CLEAR 3 0)
        else
          (false, (r1.getD 0 0 <<< 15 ||| r1.getD 1 0 <<< 7) % 2 ^ 16, clear,
           afterQuery self CMD_READ_ALERT_LIMIT_HIGH_SET 3 0)) := by
  have hr2q : (afterQuery self CMD_READ_ALERT_LIMIT_HIGH_SET 3 0)._pI2cBus.responses.headD []
      = r2 := hr2
  have hoff : OFFSET_ALERT_LIMIT_TEMPERATURE_HIGH = 15 := rfl
  have hoff2 : OFFSET_ALERT_LIMIT_TEMPERATURE_LOW = 7 := rfl
  rw [readAlertLimitsHigh, queryCommand_eq self _ _ 3 0 (by decide) (by decide), hr1]
  simp only [bind, Option.bind, zeroBuffer3_get r1 0 (by decide),
    zeroBuffer3_get r1 1 (by decide), pure]
  cases hv : frameValid r1 3
  · simp [hoff, hoff2]
  · rw [queryCommand_eq _ _ _ 3 0 (by decide) (by rw [zeroBuffer3_length]), hr2q]
    have h0 := readBuffer_get r2 _ 3 0 (zeroBuffer3_length r1) (by decide)
    have h1 := readBuffer_get r2 _ 3 1 (zeroBuffer3_length r1) (by decide)
    rw [zeroBuffer3_getD r1 0 (by decide)] at h0
    rw [zeroBuffer3_getD r1 1 (by decide)] at h1
    simp [h0, h1, hoff, hoff2]

theorem readAlertLimitsLow_eq (self : STS3x) (clear : Nat) (r1 r2 : List Nat)
    (hr1 : self._pI2cBus.responses.headD [] = r1)
    (hr2 : self._pI2cBus.responses.tail.headD [] = r2) :
    readAlertLimitsLow self clear =
      some (if frameValid r1 3 then
          (frameValid r2 3,
           (r1.getD 0 0 <<< 15 ||| r1.getD 1 0 <<< 7) % 2 ^ 16,
           (r2.getD 0 (r1.getD 0 0) <<< 15 ||| r2.getD 1 (r1.getD 1 0) <<< 7) % 2 ^ 16,
           afterQuery (afterQuery self CMD_READ_ALERT_LIMIT_LOW_SET 3 0)
             CMD_READ_ALERT_LIMIT_LOW_CLEAR 3 0)
        else
          (false, (r1.getD 0 0 <<< 15 ||| r1.getD 1 0 <<< 7) % 2 ^ 16, clear,
           afterQuery self CMD_READ_ALERT_LIMIT_LOW_SET 3 0)) := by
  have hr2q : (afterQuery self CMD_READ_ALERT_LIMIT_LOW_SET 3 0)._pI2cBus.responses.headD []
      = r2 := hr2
  have hoff : OFFSET_ALERT_LIMIT_TEMPERATURE_HIGH = 15 := rfl
  have hoff2 : OFFSET_ALERT_LIMIT_TEMPERATURE_LOW = 7 := rfl
  rw [readAlertLimitsLow, queryCommand_eq self _ _ 3 0 (by decide) (by decide), hr1]
  simp only [bind, Option.bind, zeroBuffer3_get r1 0 (by decide),
    zeroBuffer3_get r1 1 (by decide), pure]
  cases hv : frameValid r1 3
  · simp [hoff, hoff2]
  · rw [queryCommand_eq _ _ _ 3 0 (by decide) (by rw [zeroBuffer3_length]), hr2q]
    have h0 := readBuffer_get r2 _ 3 0 (zeroBuffer3_length r1) (by decide)
    have h1 := readBuffer_get r2 _ 3 1 (zeroBuffer3_length r1) (by decide)
    rw [zeroBuffer3_getD r1 0 (by decide)] at h0
    rw [zeroBuffer3_getD r1 1 (by decide)] at h1
    simp [h0, h1, hoff, hoff2]

/-! ## Alert-limit writes -/

theorem setAlertLimitsHigh_eq (self : STS3x) (set clear : Nat) :
    setAlertLimitsHigh self set clear =
      some (if commandDataOk self [(set >>> 15) % 256, (set >>> 7) % 256] then
          (commandDataOk
              (afterCommandData self CMD_WRITE_ALERT_LIMIT_HIGH_SET
                [(set >>> 15) % 256, (set >>> 7) % 256])
              [(clear >>> 15) % 256, (clear >>> 7) % 256],
           afterCommandData
              (afterCommandData self CMD_WRITE_ALERT_LIMIT_HIGH_SET
                [(set >>> 15) % 256, (set >>> 7) % 256])
              CMD_WRITE_ALERT_LIMIT_HIGH_CLEAR [(clear >>> 15) % 256, (clear >>> 7) % 256])
        else
          (false, afterCommandData self CMD_WRITE_ALERT_LIMIT_HIGH_SET
            [(set >>> 15) % 256, (set >>> 7) % 256])) := by
  have hoff : OFFSET_ALERT_LIMIT_TEMPERATURE_HIGH = 15 := rfl
  have hoff2 : OFFSET_ALERT_LIMIT_TEMPERATURE_LOW = 7 := rfl
  have h1 := writeCommand_data self CMD_WRITE_ALERT_LIMIT_HIGH_SET
    [(set >>> 15) % 256, (set >>> 7) % 256] (by simp)
  have h2 := writeCommand_data
    (afterCommandData self CMD_WRITE_ALERT_LIMIT_HIGH_SET [(set >>> 15) % 256, (set >>> 7) % 256])
    CMD_WRITE_ALERT_LIMIT_HIGH_CLEAR [(clear >>> 15) % 256, (clear >>> 7) % 256] (by simp)
  simp only [List.length_cons, List.length_nil, Nat.zero_add, Nat.reduceAdd] at h1 h2
  rw [setAlertLimitsHigh, hoff, hoff2, h1]
  simp only [bind, Option.bind, pure, h2]
  cases commandDataOk self [(set >>> 15) % 256, (set >>> 7) % 256] <;> rfl

theorem setAlertLimitsLow_eq (self : STS3x) (set clear : Nat) :
    setAlertLimitsLow self set clear =
      some (if commandDataOk self [(set >>> 15) % 256, (set >>> 7) % 256] then
          (commandDataOk
              (afterCommandData self CMD_WRITE_ALERT_LIMIT_LOW_SET
                [(set >>> 15) % 256, (set >>> 7) % 256])
              [(clear >>> 15) % 256, (clear >>> 7) % 256],
           afterCommandData
              (afterCommandData self CMD_WRITE_ALERT_LIMIT_LOW_SET
                [(set >>> 15) % 256, (set >>> 7) % 256])
              CMD_WRITE_ALERT_LIMIT_LOW_CLEAR [(clear >>> 15) % 256, (clear >>> 7) % 256])
        else
          (false, afterCommandData self CMD_WRITE_ALERT_LIMIT_LOW_SET
            [(set >>> 15) % 256, (set >>> 7) % 256])) := by
  have hoff : OFFSET_ALERT_LIMIT_TEMPERATURE_HIGH = 15 := rfl
  have hoff2 : OFFSET_ALERT_LIMIT_TEMPERATURE_LOW = 7 := rfl
  have h1 := writeCommand_data self CMD_WRITE_ALERT_LIMIT_LOW_SET
    [(set >>> 15) % 256, (set >>> 7) % 256] (by simp)
  have h2 := writeCommand_data
    (afterCommandData self CMD_WRITE_ALERT_LIMIT_LOW_SET [(set >>> 15) % 256, (set >>> 7) % 256])
    CMD_WRITE_ALERT_LIMIT_LOW_CLEAR [(clear >>> 15) % 256, (clear >>> 7) % 256] (by simp)
  simp only [List.length_cons, List.length_nil, Nat.zero_add, Nat.reduceAdd] at h1 h2
  rw [setAlertLimitsLow, hoff, hoff2, h1]
  simp only [bind, Option.bind, pure, h2]
  cases commandDataOk self [(set >>> 15) % 256, (set >>> 7) % 256] <;> rfl

/-! ## The alert-limit codec on bits -/

theorem alertLimit_decode_encode (x : Nat) (hx : x < 65536) :
    (((x >>> 15) % 256) <<< 15 ||| ((x >>> 7) % 256) <<< 7) % 2 ^ 16 = x &&& 0xFF80 := by
  apply Nat.eq_of_testBit_eq
  intro i
  have hhi : ∀ j, 16 ≤ j → x.testBit j = false := by
    intro j hj
    apply Nat.testBit_lt_two_pow
    calc x < 2 ^ 16 := hx
      _ ≤ 2 ^ j := Nat.pow_le_pow_right (by decide) hj
  rw [show (256 : ℕ) = 2 ^ 8 from rfl, show (0xFF80 : ℕ) = (2 ^ 9 - 1) <<< 7 from rfl]
  simp only [Nat.testBit_mod_two_pow, Nat.testBit_or, Nat.testBit_shiftLeft,
    Nat.testBit_shiftRight, Nat.testBit_and, Nat.testBit_two_pow_sub_one]
  by_cases h7 : i < 7
  · have a1 : ¬ i ≥ 15 := by omega
    have a2 : ¬ i ≥ 7 := by omega
    simp [a1, a2]
  · by_cases h15 : i < 15
    · have a1 : ¬ i ≥ 15 := by omega
      have a2 : i ≥ 7 := by omega
      have a3 : i - 7 < 8 := by omega
      have a4 : i - 7 < 9 := by omega
      have a5 : i < 16 := by omega
      have a6 : 7 + (i - 7) = i := by omega
      simp [a1, a2, a3, a4, a5, a6]
    · by_cases h16 : i < 16
      · have a0 : i = 15 := by omega
        subst a0
        simp
      · have a5 : ¬ i < 16 := h16
        simp [a5, hhi i (by omega)]

theorem and_FF80_eq (x : Nat) : x &&& 0xFF80 = (x % 65536) / 128 * 128 := by
  apply Nat.eq_of_testBit_eq
  intro i
  rw [show (0xFF80 : ℕ) = (2 ^ 9 - 1) <<< 7 from rfl, show (65536 : ℕ) = 2 ^ 16 from rfl,
    show (128 : ℕ) = 2 ^ 7 from rfl, ← Nat.shiftRight_eq_div_pow, ← Nat.shiftLeft_eq]
  simp only [Nat.testBit_mod_two_pow, Nat.testBit_shiftLeft, Nat.testBit_shiftRight,
    Nat.testBit_and, Nat.testBit_two_pow_sub_one]
  by_cases h7 : i < 7
  · have a2 : ¬ i ≥ 7 := by omega
    simp [a2]
  · have a2 : i ≥ 7 := by omega
    have a6 : 7 + (i - 7) = i := by omega
    by_cases h16 : i < 16
    · have a4 : i - 7 < 9 := by omega
      simp [a2, a4, a6, h16]
    · have a4 : ¬ i - 7 < 9 := by omega
      simp [a2, a4, a6, h16]

theorem frameValid_iff (r : List Nat) (len : Nat) :
    frameValid r len = true ↔ len ≤ r.length ∧ crc8 r (len - 1) = r[len - 1]? := by
  simp [frameValid]

/-! ## Rounding to binary32 -/

end STS3x

namespace Binary32

theorem roundHalfEven_sub_le (x : ℚ) : |((roundHalfEven x : ℤ) : ℚ) - x| ≤ 1 / 2 := by
  have h1 := Int.floor_le x
  have h2 := Int.lt_floor_add_one x
  unfold roundHalfEven
  rw [abs_le]
  split_ifs with ha hb hc
  · constructor <;> linarith
  · push_cast
    constructor <;> linarith
  · constructor <;> linarith
  · push_cast
    constructor <;> linarith

theorem roundHalfEven_intCast (n : ℤ) : roundHalfEven (n : ℚ) = n := by
  unfold roundHalfEven
  rw [Int.floor_intCast, sub_self, if_pos (by norm_num)]

/-- Error of one rounding: a result below `2 ^ k` in magnitude (with
`-125 ≤ k ≤ 127`) rounds to a finite value at most `2 ^ (k - 25)` away. -/
theorem ofRat_error (q : ℚ) (k : ℤ) (hq : |q| < 2 ^ k) (hk : -125 ≤ k) (hk2 : k ≤ 127) :
    ∃ m : ℚ, ofRat q = finite m ∧ |m - q| ≤ 2 ^ (k - 25) := by
  by_cases h0 : q = 0
  · refine ⟨0, by rw [ofRat, if_pos h0], ?_⟩
    rw [h0, sub_zero, abs_zero]
    exact le_of_lt (zpow_pos (by norm_num) _)
  · have habs : 0 < |q| := abs_pos.mpr h0
    have hlog : Int.log 2 |q| < k := by
      have h := (Int.lt_zpow_iff_log_lt (R := ℚ) (b := 2) (by norm_num) (x := k) habs).mp
        (by exact_mod_cast hq)
      exact h
    have hz : max (Int.log 2 |q| - 23) (-149) ≤ k - 24 := by
      rw [max_le_iff]; constructor <;> omega
    rw [ofRat, if_neg h0]
    simp only []
    generalize max (Int.log 2 |q| - 23) (-149) = z at hz
    have hquant : (0 : ℚ) < 2 ^ z := zpow_pos (by norm_num) _
    have hqz : (2 : ℚ) ^ z ≤ 2 ^ (k - 24) := zpow_le_zpow_right₀ (by norm_num) hz
    have hhalf : (2 : ℚ) ^ (k - 24) = 2 * 2 ^ (k - 25) := by
      rw [show k - 24 = 1 + (k - 25) by ring, zpow_add₀ (by norm_num), zpow_one]
    have herr : |((roundHalfEven (q / 2 ^ z) : ℤ) : ℚ) * 2 ^ z - q| ≤ 2 ^ (k - 25) := by
      have h := roundHalfEven_sub_le (q / 2 ^ z)
      have heq : ((roundHalfEven (q / 2 ^ z) : ℤ) : ℚ) * 2 ^ z - q
          = (((roundHalfEven (q / 2 ^ z) : ℤ) : ℚ) - q / 2 ^ z) * 2 ^ z := by
        field_simp
      rw [heq, abs_mul, abs_of_pos hquant]
      calc |((roundHalfEven (q / 2 ^ z) : ℤ) : ℚ) - q / 2 ^ z| * 2 ^ z
          ≤ 1 / 2 * 2 ^ z := by
            exact mul_le_mul_of_nonneg_right h (le_of_lt hquant)
        _ ≤ 1 / 2 * 2 ^ (k - 24) := by
            exact mul_le_mul_of_nonneg_left hqz (by norm_num)
        _ = 2 ^ (k - 25) := by rw [hhalf]; ring
    refine ⟨((roundHalfEven (q / 2 ^ z) : ℤ) : ℚ) * 2 ^ z, ?_, herr⟩
    have hbig : ¬ (2 : ℚ) ^ 128 ≤ |((roundHalfEven (q / 2 ^ z) : ℤ) : ℚ) * 2 ^ z| := by
      rw [not_le]
      have h1 : |((roundHalfEven (q / 2 ^ z) : ℤ) : ℚ) * 2 ^ z| ≤ |q| + 2 ^ (k - 25) := by
        have := abs_sub_abs_le_abs_sub (((roundHalfEven (q / 2 ^ z) : ℤ) : ℚ) * 2 ^ z) q
        linarith
      have h2 : (2 : ℚ) ^ (k - 25) ≤ 2 ^ k := zpow_le_zpow_right₀ (by norm_num) (by omega)
      have h3 : (2 : ℚ) ^ k ≤ 2 ^ (127 : ℤ) := zpow_le_zpow_right₀ (by norm_num) hk2
      have h4 : (2 : ℚ) ^ (127 : ℤ) * 2 = 2 ^ 128 := by norm_num
      linarith
    rw [if_neg hbig]

/-- A rational whose quotient by the spacing at its magnitude is an integer
is a binary32 value: rounding leaves it unchanged. -/
theorem ofRat_exact (q : ℚ) (n : ℤ) (hq : |q| < 2 ^ 128)
    (hn : q / 2 ^ max (Int.log 2 |q| - 23) (-149) = n) : ofRat q = finite q := by
  by_cases h0 : q = 0
  · rw [ofRat, if_pos h0, h0]
  · rw [ofRat, if_neg h0]
    simp only []
    rw [hn, roundHalfEven_intCast, ← hn]
    have hquant : (0 : ℚ) < 2 ^ max (Int.log 2 |q| - 23) (-149) := zpow_pos (by norm_num) _
    rw [div_mul_cancel₀ _ (ne_of_gt hquant), if_neg (not_le.mpr hq)]

/-- Every integer below `2 ^ 24` in magnitude is a binary32 value. -/
theorem ofRat_intCast (n : ℤ) (hn : |n| < 2 ^ 24) : ofRat (n : ℚ) = finite (n : ℚ) := by
  by_cases h0 : (n : ℚ) = 0
  · rw [ofRat, if_pos h0, h0]
  · have habs : (0 : ℚ) < |(n : ℚ)| := abs_pos.mpr h0
    have hlt : |(n : ℚ)| < 2 ^ (24 : ℤ) := by
      have : ((|n| : ℤ) : ℚ) < ((2 ^ 24 : ℤ) : ℚ) := by exact_mod_cast hn
      rw [Int.cast_abs] at this
      exact_mod_cast this
    have hlog : Int.log 2 |(n : ℚ)| < 24 :=
      (Int.lt_zpow_iff_log_lt (R := ℚ) (b := 2) (by norm_num) (x := 24) habs).mp
        (by exact_mod_cast hlt)
    have hz : max (Int.log 2 |(n : ℚ)| - 23) (-149) ≤ 0 := by
      rw [max_le_iff]; constructor <;> omega
    obtain ⟨j, hj⟩ : ∃ j : ℕ, max (Int.log 2 |(n : ℚ)| - 23) (-149) = -(j : ℤ) :=
      ⟨(-(max (Int.log 2 |(n : ℚ)| - 23) (-149))).toNat, by omega⟩
    refine ofRat_exact (n : ℚ) (n * 2 ^ j) ?_ ?_
    · calc |(n : ℚ)| < 2 ^ (24 : ℤ) := hlt
        _ ≤ 2 ^ 128 := by norm_num
    · rw [hj, zpow_neg, zpow_natCast]
      push_cast
      field_simp

theorem ofNat_exact (n : Nat) (hn : n < 2 ^ 24) : ofNat n = finite (n : ℚ) := by
  have h := ofRat_intCast (n : ℤ) (by rw [abs_of_nonneg (by omega)]; exact_mod_cast hn)
  rw [ofNat]
  exact_mod_cast h

/-- A value strictly within one half of an integer rounds to that integer. -/
theorem roundHalfEven_eq_of_abs_lt (x : ℚ) (n : ℤ) (h : |x - n| < 1 / 2) :
    roundHalfEven x = n := by
  have h1 := roundHalfEven_sub_le x
  rw [abs_le] at h1
  rw [abs_lt] at h
  have hlo : ((n : ℤ) : ℚ) - 1 < ((roundHalfEven x : ℤ) : ℚ) := by linarith
  have hhi : ((roundHalfEven x : ℤ) : ℚ) < (n : ℚ) + 1 := by linarith
  have hlo2 : n - 1 < roundHalfEven x := by exact_mod_cast hlo
  have hhi2 : roundHalfEven x < n + 1 := by exact_mod_cast hhi
  omega

/-- Rounding of a rational of known binade in the normal range: with
`2 ^ e ≤ |q| < 2 ^ (e + 1)` the spacing of binary32 is `2 ^ (e - 23)`, and
`q` rounds to `n * 2 ^ (e - 23)` when `n` is the integer strictly nearest to
`q / 2 ^ (e - 23)`. -/
theorem ofRat_of_binade (q : ℚ) (e n : ℤ) (hlo : 2 ^ e ≤ |q|) (hhi : |q| < 2 ^ (e + 1))
    (he : -126 ≤ e) (hn : |q / 2 ^ (e - 23) - n| < 1 / 2)
    (hfin : |(n : ℚ) * 2 ^ (e - 23)| < 2 ^ 128) :
    ofRat q = finite ((n : ℚ) * 2 ^ (e - 23)) := by
  have habs : (0 : ℚ) < |q| := lt_of_lt_of_le (zpow_pos (by norm_num) e) hlo
  have h0 : q ≠ 0 := abs_pos.mp habs
  have hlog1 : e ≤ Int.log 2 |q| :=
    (Int.zpow_le_iff_le_log (R := ℚ) (b := 2) (by norm_num) (x := e) habs).mp
      (by exact_mod_cast hlo)
  have hlog2 : Int.log 2 |q| < e + 1 :=
    (Int.lt_zpow_iff_log_lt (R := ℚ) (b := 2) (by norm_num) (x := e + 1) habs).mp
      (by exact_mod_cast hhi)
  have hlog : Int.log 2 |q| = e := by omega
  have hmax : max (Int.log 2 |q| - 23) (-149) = e - 23 := by
    rw [hlog]; exact max_eq_left (by omega)
  rw [ofRat, if_neg h0]
  simp only []
  rw [hmax, roundHalfEven_eq_of_abs_lt _ n hn, if_neg (not_le.mpr hfin)]

end Binary32

namespace STS3x

open Binary32

/-! ## Temperature conversion -/

/-- `convertToCelsius` never overflows or yields NaN on a 16-bit code, and
the two roundings move the result at most `2 ^ (-16)` away from the exact
value. -/
theorem convertToCelsius_bound (v : Nat) (hv : v < 65536) :
    ∃ q : ℚ, convertToCelsius v = finite q ∧ |q - rawToCelsiusExact v| ≤ 1 / 65536 := by
  have hvq : (v : ℚ) ≤ 65535 := by exact_mod_cast Nat.lt_succ_iff.mp hv
  have hv0 : (0 : ℚ) ≤ v := Nat.cast_nonneg v
  have hmod : (v * 175) % 2 ^ 32 = v * 175 := Nat.mod_eq_of_lt (by omega)
  have h1 : ofNat (v * 175) = finite ((v : ℚ) * 175) := by
    rw [ofNat_exact _ (by omega)]; push_cast; rfl
  have h45 : ofNat 45 = finite 45 := by
    rw [ofNat_exact _ (by norm_num)]; norm_num
  have hE0 : (0 : ℚ) ≤ (v : ℚ) * 175 / 65535 := by positivity
  have hE1 : (v : ℚ) * 175 / 65535 ≤ 175 := by
    rw [div_le_iff₀ (by norm_num)]; linarith
  obtain ⟨m1, hm1, he1⟩ := ofRat_error ((v : ℚ) * 175 / 65535) 8
    (by rw [abs_of_nonneg hE0]; norm_num; linarith) (by norm_num) (by norm_num)
  have hp17 : (2 : ℚ) ^ ((8 : ℤ) - 25) = 1 / 131072 := by norm_num
  rw [hp17, abs_le] at he1
  obtain ⟨m2, hm2, he2⟩ := ofRat_error (m1 + -45) 8
    (by rw [abs_lt]; norm_num; constructor <;> linarith) (by norm_num) (by norm_num)
  rw [hp17, abs_le] at he2
  refine ⟨m2, ?_, ?_⟩
  · rw [convertToCelsius, hmod, h1, h45]
    simp only [Binary32.div, Binary32.sub, Binary32.neg, Binary32.add]
    rw [if_neg (by norm_num), hm1]
    simp only [Binary32.add]
    exact hm2
  · rw [rawToCelsiusExact, abs_le]
    constructor <;> linarith

theorem convertToRaw_convertToCelsius_aux (v : Nat) (hv : v < 65536) :
    ∃ r, convertToRaw (convertToCelsius v) = some r ∧ v ≤ r + 1 ∧ r ≤ v := by
  have hvq : (v : ℚ) ≤ 65535 := by exact_mod_cast Nat.lt_succ_iff.mp hv
  have hv0 : (0 : ℚ) ≤ v := Nat.cast_nonneg v
  obtain ⟨m2, hm2, he2⟩ := convertToCelsius_bound v hv
  rw [rawToCelsiusExact, abs_le] at he2
  have hE0 : (0 : ℚ) ≤ (v : ℚ) * 175 / 65535 := by positivity
  have hE1 : (v : ℚ) * 175 / 65535 ≤ 175 := by
    rw [div_le_iff₀ (by norm_num)]; linarith
  have hE : (v : ℚ) * 175 / 65535 * 65535 = v * 175 := by field_simp
  obtain ⟨m3, hm3, he3⟩ := ofRat_error (m2 + 45) 8
    (by rw [abs_lt]; norm_num; constructor <;> linarith) (by norm_num) (by norm_num)
  have hp17 : (2 : ℚ) ^ ((8 : ℤ) - 25) = 1 / 131072 := by norm_num
  rw [hp17, abs_le] at he3
  obtain ⟨m4, hm4, he4⟩ := ofRat_error (m3 * 65535) 24
    (by rw [abs_lt]; norm_num; constructor <;> nlinarith) (by norm_num) (by norm_num)
  have hp1 : (2 : ℚ) ^ ((24 : ℤ) - 25) = 1 / 2 := by norm_num
  rw [hp1, abs_le] at he4
  have h4lo : (v : ℚ) * 175 - 2 ≤ m4 := by nlinarith
  have h4hi : m4 ≤ (v : ℚ) * 175 + 2 := by nlinarith
  obtain ⟨m5, hm5, he5⟩ := ofRat_error (m4 / 175) 16
    (by
      rw [abs_lt]
      constructor
      · rw [lt_div_iff₀ (by norm_num)]; norm_num; linarith
      · rw [div_lt_iff₀ (by norm_num)]; norm_num; linarith)
    (by norm_num) (by norm_num)
  have hp9 : (2 : ℚ) ^ ((16 : ℤ) - 25) = 1 / 512 := by norm_num
  rw [hp9, abs_le] at he5
  have h5lo : (v : ℚ) - 1 < m5 := by
    have : (v : ℚ) - 2 / 175 ≤ m4 / 175 := by
      rw [le_div_iff₀ (by norm_num)]; linarith
    linarith
  have h5hi : m5 < (v : ℚ) + 1 := by
    have : m4 / 175 ≤ (v : ℚ) + 2 / 175 := by
      rw [div_le_iff₀ (by norm_num)]; linarith
    linarith
  have hconv : convertToRaw (convertToCelsius v) = toUInt16 (finite m5) := by
    rw [convertToRaw, hm2]
    simp only [Binary32.add, Binary32.mul, Binary32.div]
    rw [hm3]
    simp only [Binary32.mul]
    rw [hm4]
    simp only [Binary32.div]
    rw [if_neg (by norm_num), hm5]
  rw [hconv, toUInt16]
  by_cases hpos : 0 ≤ m5
  · rw [if_pos hpos]
    have hf0 : 0 ≤ ⌊m5⌋ := Int.floor_nonneg.mpr hpos
    have hf1 : ⌊m5⌋ < (v : ℤ) + 1 := by
      rw [Int.floor_lt]; push_cast; exact h5hi
    have hf2 : (v : ℤ) - 1 ≤ ⌊m5⌋ := by
      rw [Int.le_floor]; push_cast; linarith
    rw [if_pos ⟨hf0, by omega⟩]
    exact ⟨_, rfl, by omega, by omega⟩
  · rw [if_neg hpos]
    rw [not_le] at hpos
    have hv1 : (v : ℚ) < 1 := by linarith
    have hvz : v = 0 := by
      have : v < 1 := by exact_mod_cast hv1
      omega
    subst hvz
    have hfl : ⌊-m5⌋ = 0 := by
      rw [Int.floor_eq_iff]
      constructor
      · push_cast; linarith
      · push_cast; norm_num at h5lo; linarith
    rw [hfl]
    exact ⟨0, by simp, by omega, by omega⟩

theorem convertToCelsius_zero : convertToCelsius 0 = finite (-45) := by
  have h0 : ofNat 0 = finite 0 := by
    rw [ofNat_exact _ (by norm_num)]; norm_num
  have h45 : ofNat 45 = finite 45 := by
    rw [ofNat_exact _ (by norm_num)]; norm_num
  have hneg : ofRat (-45) = finite (-45) := by
    have h := ofRat_intCast (-45) (by norm_num)
    exact_mod_cast h
  rw [convertToCelsius, show (0 * 175) % 2 ^ 32 = 0 from rfl, h0, h45]
  simp only [Binary32.div, Binary32.sub, Binary32.neg]
  rw [if_neg (by norm_num), zero_div, ofRat, if_pos rfl]
  simp only [Binary32.add]
  rw [zero_add, hneg]

theorem convertToCelsius_max : convertToCelsius 65535 = finite 130 := by
  have h0 : ofNat 11468625 = finite 11468625 := by
    rw [ofNat_exact _ (by norm_num)]; norm_num
  have h45 : ofNat 45 = finite 45 := by
    rw [ofNat_exact _ (by norm_num)]; norm_num
  have h175 : ofRat 175 = finite 175 := by
    have h := ofRat_intCast 175 (by norm_num)
    exact_mod_cast h
  have h130 : ofRat 130 = finite 130 := by
    have h := ofRat_intCast 130 (by norm_num)
    exact_mod_cast h
  rw [convertToCelsius, show (65535 * 175) % 2 ^ 32 = 11468625 from rfl, h0, h45]
  simp only [Binary32.div, Binary32.sub, Binary32.neg]
  rw [if_neg (by norm_num), show (11468625 : ℚ) / 65535 = 175 by norm_num, h175]
  simp only [Binary32.add]
  rw [show (175 : ℚ) + -45 = 130 by norm_num, h130]

/-! ## Claims -/

/-- C1: for every requested length `len ≥ 1`, every buffer that holds `len`
bytes and every scripted bus response `r`, `queryCommand` returns a result
(no access outside the buffer) and reports success if and only if exactly
`len` bytes were read and byte `len - 1` of the response equals `crc8` of the
`len - 1` bytes before it; a short read and a corrupted checksum byte both
give `false`.  The reads built on it inherit this: `readStatus` and the
validated `readTempRaw` / `fetchTempRaw` succeed exactly on a valid 3-byte
frame, `readAlertLimitsHigh` / `readAlertLimitsLow` exactly when the frames
of both of their queries (`r`, then `r2`) are valid. -/
theorem queryCommand_success_iff (self : STS3x) (command len delayus : Nat)
    (result r r2 : List Nat)
    (hr : self._pI2cBus.responses.headD [] = r)
    (hr2 : self._pI2cBus.responses.tail.headD [] = r2)
    (hlen : 1 ≤ len) (hbuf : len ≤ result.length) :
    (∃ ok buf self',
      queryCommand self command result len delayus = some (ok, buf, self') ∧
      self'._pI2cBus.trace.getLast? = some (BusEvent.readBytes len (min len r.length)) ∧
      (ok = true ↔ min len r.length = len ∧ crc8 r (len - 1) = r[len - 1]?) ∧
      (r.length < len → ok = false) ∧
      (crc8 r (len - 1) ≠ r[len - 1]? → ok = false)) ∧
    (∃ ok status self', readStatus self = some (ok, status, self') ∧
      (ok = true ↔ 3 ≤ r.length ∧ crc8 r 2 = r[2]?)) ∧
    (∀ rep, ∃ ok value self', readTempRaw self rep = some (ok, value, self') ∧
      (ok = true ↔ 3 ≤ r.length ∧ crc8 r 2 = r[2]?)) ∧
    (∃ ok value self', fetchTempRaw self = some (ok, value, self') ∧
      (ok = true ↔ 3 ≤ r.length ∧ crc8 r 2 = r[2]?)) ∧
    (∀ clear, ∃ ok set clear' self',
      readAlertLimitsHigh self clear = some (ok, set, clear', self') ∧
      (ok = true ↔ (3 ≤ r.length ∧ crc8 r 2 = r[2]?) ∧ (3 ≤ r2.length ∧ crc8 r2 2 = r2[2]?))) ∧
    (∀ clear, ∃ ok set clear' self',
      readAlertLimitsLow self clear = some (ok, set, clear', self') ∧
      (ok = true ↔ (3 ≤ r.length ∧ crc8 r 2 = r[2]?) ∧ (3 ≤ r2.length ∧ crc8 r2 2 = r2[2]?))) := by
  refine ⟨?_, ?_, ?_, ?_, ?_, ?_⟩
  · refine ⟨_, _, _, queryCommand_eq self command result len delayus hlen hbuf, ?_, ?_, ?_, ?_⟩
    · rw [afterQuery, hr]
      simp
    · rw [hr, frameValid_iff]
      constructor
      · rintro ⟨h1, h2⟩
        exact ⟨by omega, h2⟩
      · rintro ⟨h1, h2⟩
        exact ⟨by omega, h2⟩
    · intro hshort
      rw [hr, Bool.eq_false_iff, ne_eq, frameValid_iff]
      rintro ⟨h1, -⟩
      omega
    · intro hbad
      rw [hr, Bool.eq_false_iff, ne_eq, frameValid_iff]
      rintro ⟨-, h2⟩
      exact hbad h2
  · exact ⟨_, _, _, readStatus_eq self r hr, frameValid_iff r 3⟩
  · intro rep
    exact ⟨_, _, _, readTempRaw_eq self rep r hr, frameValid_iff r 3⟩
  · exact ⟨_, _, _, fetchTempRaw_eq self r hr, frameValid_iff r 3⟩
  · intro clear
    have h := readAlertLimitsHigh_eq self clear r r2 hr hr2
    cases hv : frameValid r 3
    · rw [hv] at h
      refine ⟨_, _, _, _, h, ?_⟩
      have hn := frameValid_iff r 3
      rw [hv] at hn
      constructor
      · intro hc; cases hc
      · rintro ⟨h1, -⟩
        exact hn.mpr h1
    · rw [hv] at h
      refine ⟨_, _, _, _, h, ?_⟩
      rw [frameValid_iff]
      have hn := (frameValid_iff r 3).mp hv
      exact ⟨fun h2 => ⟨hn, h2⟩, fun h2 => h2.2⟩
  · intro clear
    have h := readAlertLimitsLow_eq self clear r r2 hr hr2
    cases hv : frameValid r 3
    · rw [hv] at h
      refine ⟨_, _, _, _, h, ?_⟩
      have hn := frameValid_iff r 3
      rw [hv] at hn
      constructor
      · intro hc; cases hc
      · rintro ⟨h1, -⟩
        exact hn.mpr h1
    · rw [hv] at h
      refine ⟨_, _, _, _, h, ?_⟩
      rw [frameValid_iff]
      have hn := (frameValid_iff r 3).mp hv
      exact ⟨fun h2 => ⟨hn, h2⟩, fun h2 => h2.2⟩

/-- Witness of C1: a driver whose device answers the 3-byte frame
`[0xBE, 0xEF, 0x92]`, read into a 3-byte buffer; the hypotheses hold and the
query reports success. -/
theorem queryCommand_success_iff_witness :
    ((⟨⟨[], [[0xBE, 0xEF, 0x92]], [], []⟩, 0x4A⟩ : STS3x)._pI2cBus.responses.headD []
        = [0xBE, 0xEF, 0x92] ∧
      (⟨⟨[], [[0xBE, 0xEF, 0x92]], [], []⟩, 0x4A⟩ : STS3x)._pI2cBus.responses.tail.headD []
        = [] ∧
      1 ≤ 3 ∧ 3 ≤ [0, 0, 0].length) ∧
    ∃ buf self',
      queryCommand ⟨⟨[], [[0xBE, 0xEF, 0x92]], [], []⟩, 0x4A⟩ 0x2400 [0, 0, 0] 3 15000
        = some (true, buf, self') := by
  refine ⟨⟨rfl, rfl, by decide, by decide⟩, ?_⟩
  obtain ⟨⟨ok, buf, self', h, -, hiff, -, -⟩, -⟩ :=
    queryCommand_success_iff ⟨⟨[], [[0xBE, 0xEF, 0x92]], [], []⟩, 0x4A⟩ 0x2400 3 15000
      [0, 0, 0] [0xBE, 0xEF, 0x92] [] rfl rfl (by decide) (by decide)
  have hok : ok = true := hiff.mpr ⟨by decide, by decide⟩
  exact ⟨buf, self', hok ▸ h⟩

/-- C2: on every byte sequence `crc8` computes the CRC-8 of the
specification (polynomial 0x31, initial value 0xFF, no reflection, no final
XOR, most significant bit first: the state is XORed with the byte, then 8
rounds of "if bit 7 is set, shift left and XOR 0x31, else shift left", all
modulo 256); `crc8([]) = 0xFF` and the datasheet example
`crc8([0xBE, 0xEF]) = 0x92` hold. -/
theorem crc8_refines_spec :
    (∀ data : List Nat, crc8 data data.length = some (crc8Spec data)) ∧
    crc8 [] 0 = some 0xFF ∧
    crc8 [0xBE, 0xEF] 2 = some 0x92 := by
  refine ⟨fun data => ?_, by decide, by decide⟩
  rw [crc8_eq_spec_take data data.length (le_refl _), List.take_length]

/-- C3: `readStatus` decodes the six flags by fixed single-bit masks over the
two status bytes of the buffer (high byte `data[0]`, low byte `data[1]`;
bytes the response did not deliver are zero): checksumError is bit 0,
commandError bit 1 and systemReset bit 4 of the low byte; alertTemperature is
bit 2, heaterEnabled bit 5 and alertPending bit 7 of the high byte.  With
only bit 0 of the low byte set, checksumError alone is true; with only bit 7
of the high byte set, alertPending alone is true. -/
theorem readStatus_decodes_flags (self : STS3x) (r : List Nat)
    (hr : self._pI2cBus.responses.headD [] = r) :
    (∃ ok self', readStatus self = some (ok,
        { checksumError := (r.getD 1 0).testBit 0
          commandError := (r.getD 1 0).testBit 1
          systemReset := (r.getD 1 0).testBit 4
          alertTemperature := (r.getD 0 0).testBit 2
          heaterEnabled := (r.getD 0 0).testBit 5
          alertPending := (r.getD 0 0).testBit 7 }, self')) ∧
    (r.getD 0 0 = 0 → r.getD 1 0 = 1 →
      ∃ ok self', readStatus self = some (ok,
        { checksumError := true, commandError := false, systemReset := false,
          alertTemperature := false, heaterEnabled := false, alertPending := false },
        self')) ∧
    (r.getD 0 0 = 1 <<< (15 - 8) → r.getD 1 0 = 0 →
      ∃ ok self', readStatus self = some (ok,
        { checksumError := false, commandError := false, systemReset := false,
          alertTemperature := false, heaterEnabled := false, alertPending := true },
        self')) := by
  have hbit : ∀ x k : Nat, decide (x &&& 2 ^ k ≠ 0) = x.testBit k := by
    intro x k
    have h := and_two_pow_ne_zero_iff x k
    cases hb : x.testBit k
    · rw [hb] at h
      simpa using h
    · rw [hb] at h
      simpa using h
  have h1 : readStatus self = some (frameValid r 3,
        { checksumError := (r.getD 1 0).testBit 0
          commandError := (r.getD 1 0).testBit 1
          systemReset := (r.getD 1 0).testBit 4
          alertTemperature := (r.getD 0 0).testBit 2
          heaterEnabled := (r.getD 0 0).testBit 5
          alertPending := (r.getD 0 0).testBit 7 },
        afterQuery self CMD_READ_STATUS 3 0) := by
    rw [readStatus_eq self r hr, ← hbit _ 0, ← hbit _ 1, ← hbit _ 4, ← hbit (r.getD 0 0) 2,
      ← hbit (r.getD 0 0) 5, ← hbit (r.getD 0 0) 7]
    rfl
  refine ⟨⟨_, _, h1⟩, ?_, ?_⟩
  · intro h0 hlo
    rw [h0, hlo] at h1
    exact ⟨_, _, h1⟩
  · intro h0 hlo
    rw [h0, hlo] at h1
    exact ⟨_, _, h1⟩

/-- Witness of C3: the device answers the status bytes `0x80, 0x01` with
their checksum. -/
theorem readStatus_decodes_flags_witness :
    (⟨⟨[], [[0x80, 0x01, 0x93]], [], []⟩, 0x4A⟩ : STS3x)._pI2cBus.responses.headD []
      = [0x80, 0x01, 0x93] ∧
    ∃ ok self', readStatus ⟨⟨[], [[0x80, 0x01, 0x93]], [], []⟩, 0x4A⟩ = some (ok,
      { checksumError := true, commandError := false, systemReset := false,
        alertTemperature := false, heaterEnabled := false, alertPending := true }, self') :=
  ⟨rfl, (readStatus_decodes_flags ⟨⟨[], [[0x80, 0x01, 0x93]], [], []⟩, 0x4A⟩
    [0x80, 0x01, 0x93] rfl).1⟩

/-- C4: for each of the 15 pairs (measurements per second, repeatability),
`setContinousSampling` performs exactly one bus transaction holding a single
write of two bytes, no payload: the code of the rate (0x20, 0x21, 0x22, 0x23,
0x27 for 0.5, 1, 2, 4, 10 measurements per second), then the suffix of the
datasheet table; the 15 suffixes, and with them the 15 command words, are
pairwise distinct. -/
theorem setContinousSampling_table :
    (∀ (self : STS3x) (mps : MeasurementsPerSecond) (rep : Repeatability),
      ∃ self', setContinousSampling self mps rep = some self' ∧
        self'._pI2cBus.trace = self._pI2cBus.trace ++
          [BusEvent.beginTransmission self._i2c_addr,
           BusEvent.write [mps.toNat, datasheetSuffix mps rep] (self._pI2cBus.taken 2),
           BusEvent.endTransmission]) ∧
    (MeasurementsPerSecond.MPS_05.toNat = 0x20 ∧ MeasurementsPerSecond.MPS_1.toNat = 0x21 ∧
      MeasurementsPerSecond.MPS_2.toNat = 0x22 ∧ MeasurementsPerSecond.MPS_4.toNat = 0x23 ∧
      MeasurementsPerSecond.MPS_10.toNat = 0x27) ∧
    (∀ m1 r1 m2 r2, datasheetSuffix m1 r1 = datasheetSuffix m2 r2 → m1 = m2 ∧ r1 = r2) ∧
    (∀ m1 r1 m2 r2,
      m1.toNat * 256 + datasheetSuffix m1 r1 = m2.toNat * 256 + datasheetSuffix m2 r2 →
        m1 = m2 ∧ r1 = r2) := by
  refine ⟨?_, ⟨rfl, rfl, rfl, rfl, rfl⟩, ?_, ?_⟩
  · intro self mps rep
    cases mps <;> cases rep <;>
    · rw [setContinousSampling]
      simp only []
      rw [writeCommand_nil]
      exact ⟨_, rfl, rfl⟩
  · intro m1 r1 m2 r2
    cases m1 <;> cases r1 <;> cases m2 <;> cases r2 <;> simp [datasheetSuffix]
  · intro m1 r1 m2 r2
    cases m1 <;> cases r1 <;> cases m2 <;> cases r2 <;>
      simp [datasheetSuffix, MeasurementsPerSecond.toNat]

theorem word16_of_bytes (b0 b1 : Nat) (h0 : b0 < 256) (h1 : b1 < 256) :
    (b0 <<< 8 ||| b1 <<< 0) % 2 ^ 16 = b0 <<< 8 ||| b1 := by
  rw [Nat.shiftLeft_zero]
  apply Nat.mod_eq_of_lt
  apply Nat.or_lt_two_pow
  · rw [Nat.shiftLeft_eq]; omega
  · omega

theorem getD_lt_of_forall_lt (r : List Nat) (i : Nat) (h : ∀ b ∈ r, b < 256) :
    r.getD i 0 < 256 := by
  by_cases hi : i < r.length
  · rw [List.getD_eq_getElem _ _ hi]
    exact h _ (List.getElem_mem hi)
  · rw [List.getD_eq_default _ _ (by omega)]
    decide

theorem convertToCelsius_ne_nan (v : Nat) (hv : v < 65536) :
    convertToCelsius v ≠ Binary32.nan := by
  obtain ⟨q, hq, -⟩ := convertToCelsius_bound v hv
  rw [hq]
  exact fun h => Binary32.noConfusion h

/-- C5: for every repeatability and every scripted bus response `r` (a list
of bytes), `readTemp(repeatability)` and `fetchTemp()` return NaN exactly
when the underlying validated 3-byte read (`readTempRaw` / `fetchTempRaw`)
reports failure, which happens exactly on a short read or a checksum
mismatch; otherwise they return `convertToCelsius((b0 << 8) | b1)` for the
two received data bytes `b0`, `b1`. -/
theorem readTemp_nan_iff (self : STS3x) (repeatability : Repeatability) (r : List Nat)
    (hr : self._pI2cBus.responses.headD [] = r) (hbytes : ∀ b ∈ r, b < 256) :
    (∃ ok value t self',
      readTempRaw self repeatability = some (ok, value, self') ∧
      readTemp self repeatability = some (t, self') ∧
      (ok = false ↔ r.length < 3 ∨ crc8 r 2 ≠ r[2]?) ∧
      (t = Binary32.nan ↔ ok = false) ∧
      (ok = true → t = convertToCelsius (r.getD 0 0 <<< 8 ||| r.getD 1 0))) ∧
    (∃ ok value t self',
      fetchTempRaw self = some (ok, value, self') ∧
      fetchTemp self = some (t, self') ∧
      (ok = false ↔ r.length < 3 ∨ crc8 r 2 ≠ r[2]?) ∧
      (t = Binary32.nan ↔ ok = false) ∧
      (ok = true → t = convertToCelsius (r.getD 0 0 <<< 8 ||| r.getD 1 0))) := by
  have hw := word16_of_bytes _ _ (getD_lt_of_forall_lt r 0 hbytes)
    (getD_lt_of_forall_lt r 1 hbytes)
  have hlt : r.getD 0 0 <<< 8 ||| r.getD 1 0 < 65536 := by
    rw [← hw]; exact Nat.mod_lt _ (by norm_num)
  have hfail : frameValid r 3 = false ↔ r.length < 3 ∨ crc8 r 2 ≠ r[2]? := by
    rw [Bool.eq_false_iff, ne_eq, frameValid_iff, not_and_or, not_le]
  have hraw := readTempRaw_eq self repeatability r hr
  have hfetch := fetchTempRaw_eq self r hr
  rw [hw] at hraw hfetch
  constructor
  · cases hv : frameValid r 3
    · refine ⟨false, _, Binary32.nan, _, hv ▸ hraw, ?_, hv ▸ hfail, by simp, by simp⟩
      rw [readTemp, hraw, hv]
      rfl
    · refine ⟨true, _, convertToCelsius (r.getD 0 0 <<< 8 ||| r.getD 1 0), _, hv ▸ hraw, ?_,
        hv ▸ hfail, ?_, fun _ => rfl⟩
      · rw [readTemp, hraw, hv]
        rfl
      · exact ⟨fun h => absurd h (convertToCelsius_ne_nan _ hlt), fun h => Bool.noConfusion h⟩
  · cases hv : frameValid r 3
    · refine ⟨false, _, Binary32.nan, _, hv ▸ hfetch, ?_, hv ▸ hfail, by simp, by simp⟩
      rw [fetchTemp, hfetch, hv]
      rfl
    · refine ⟨true, _, convertToCelsius (r.getD 0 0 <<< 8 ||| r.getD 1 0), _, hv ▸ hfetch, ?_,
        hv ▸ hfail, ?_, fun _ => rfl⟩
      · rw [fetchTemp, hfetch, hv]
        rfl
      · exact ⟨fun h => absurd h (convertToCelsius_ne_nan _ hlt), fun h => Bool.noConfusion h⟩

/-- Witness of C5: the device answers the frame `[0xBE, 0xEF, 0x92]`, all
of whose entries are bytes; `readTemp` returns the Celsius value of the raw
code `0xBEEF`. -/
theorem readTemp_nan_iff_witness :
    ((⟨⟨[], [[0xBE, 0xEF, 0x92]], [], []⟩, 0x4A⟩ : STS3x)._pI2cBus.responses.headD []
        = [0xBE, 0xEF, 0x92] ∧
      ∀ b ∈ [0xBE, 0xEF, 0x92], b < 256) ∧
    ∃ self', readTemp ⟨⟨[], [[0xBE, 0xEF, 0x92]], [], []⟩, 0x4A⟩ Repeatability.REP_HIGH
      = some (convertToCelsius 0xBEEF, self') := by
  refine ⟨⟨rfl, by decide⟩, ?_⟩
  obtain ⟨⟨ok, value, t, self', -, h2, h3, -, h5⟩, -⟩ :=
    readTemp_nan_iff ⟨⟨[], [[0xBE, 0xEF, 0x92]], [], []⟩, 0x4A⟩ Repeatability.REP_HIGH
      [0xBE, 0xEF, 0x92] rfl (by decide)
  have hok : ok = true := by
    cases ok
    · exact absurd (h3.mp rfl) (by decide)
    · rfl
  exact ⟨self', by rw [h2, h5 hok]; rfl⟩

theorem frameValid_of_crc (a b c : Nat) (hc : crc8 [a, b] 2 = some c) :
    frameValid [a, b, c] 3 = true := by
  rw [frameValid_iff]
  refine ⟨by simp, ?_⟩
  rw [crc8_eq_spec_take _ _ (by simp)] at hc ⊢
  exact hc

/-- C6, as amended: the alert-limit codec keeps bits 15 to 7 only.  Writing
`set` and `clear` with `setAlertLimitsHigh` / `setAlertLimitsLow` (on a bus
that takes every byte) puts the payloads `[(v >> 15) mod 256, (v >> 7) mod
256]` on the bus, and reading these payloads back (each followed by its
checksum) with `readAlertLimitsHigh` / `readAlertLimitsLow` succeeds and
yields `set AND 0xFF80` and `clear AND 0xFF80`; the pair read back equals
`(set, clear)` exactly when the low 7 bits of both values are zero. -/
theorem alertLimits_roundTrip_masked (writer reader : STS3x) (set clear c1 c2 entry : Nat)
    (rest : List (List Nat))
    (hset : set < 65536) (hclear : clear < 65536)
    (hacc : writer._pI2cBus.accepted = [])
    (hc1 : crc8 [(set >>> 15) % 256, (set >>> 7) % 256] 2 = some c1)
    (hc2 : crc8 [(clear >>> 15) % 256, (clear >>> 7) % 256] 2 = some c2)
    (hresp : reader._pI2cBus.responses =
      [(set >>> 15) % 256, (set >>> 7) % 256, c1] ::
        [(clear >>> 15) % 256, (clear >>> 7) % 256, c2] :: rest) :
    (∃ w', setAlertLimitsHigh writer set clear = some (true, w') ∧
      w'._pI2cBus.trace = writer._pI2cBus.trace ++
        [BusEvent.beginTransmission writer._i2c_addr,
         BusEvent.write [0x61, 0x1D] 2,
         BusEvent.write [(set >>> 15) % 256, (set >>> 7) % 256] 2,
         BusEvent.endTransmission,
         BusEvent.beginTransmission writer._i2c_addr,
         BusEvent.write [0x61, 0x16] 2,
         BusEvent.write [(clear >>> 15) % 256, (clear >>> 7) % 256] 2,
         BusEvent.endTransmission]) ∧
    (∃ w', setAlertLimitsLow writer set clear = some (true, w') ∧
      w'._pI2cBus.trace = writer._pI2cBus.trace ++
        [BusEvent.beginTransmission writer._i2c_addr,
         BusEvent.write [0x61, 0x00] 2,
         BusEvent.write [(set >>> 15) % 256, (set >>> 7) % 256] 2,
         BusEvent.endTransmission,
         BusEvent.beginTransmission writer._i2c_addr,
         BusEvent.write [0x61, 0x0B] 2,
         BusEvent.write [(clear >>> 15) % 256, (clear >>> 7) % 256] 2,
         BusEvent.endTransmission]) ∧
    (∃ r', readAlertLimitsHigh reader entry
      = some (true, set &&& 0xFF80, clear &&& 0xFF80, r')) ∧
    (∃ r', readAlertLimitsLow reader entry
      = some (true, set &&& 0xFF80, clear &&& 0xFF80, r')) ∧
    ((set &&& 0xFF80, clear &&& 0xFF80) = (set, clear) ↔ set % 128 = 0 ∧ clear % 128 = 0) := by
  have hv1 := frameValid_of_crc _ _ _ hc1
  have hv2 := frameValid_of_crc _ _ _ hc2
  have hr1 : reader._pI2cBus.responses.headD []
      = [(set >>> 15) % 256, (set >>> 7) % 256, c1] := by rw [hresp]; rfl
  have hr2 : reader._pI2cBus.responses.tail.headD []
      = [(clear >>> 15) % 256, (clear >>> 7) % 256, c2] := by rw [hresp]; rfl
  have hd1 := alertLimit_decode_encode set hset
  have hd2 := alertLimit_decode_encode clear hclear
  refine ⟨?_, ?_, ?_, ?_, ?_⟩
  · refine ⟨afterCommandData
        (afterCommandData writer CMD_WRITE_ALERT_LIMIT_HIGH_SET [(set >>> 15) % 256, (set >>> 7) % 256])
        CMD_WRITE_ALERT_LIMIT_HIGH_CLEAR [(clear >>> 15) % 256, (clear >>> 7) % 256], ?_, ?_⟩
    · rw [setAlertLimitsHigh_eq]
      simp [commandDataOk, afterCommandData, TwoWire.taken, hacc]
    · simp [afterCommandData, TwoWire.taken, hacc, CMD_WRITE_ALERT_LIMIT_HIGH_SET,
        CMD_WRITE_ALERT_LIMIT_HIGH_CLEAR]
      decide
  · refine ⟨afterCommandData
        (afterCommandData writer CMD_WRITE_ALERT_LIMIT_LOW_SET [(set >>> 15) % 256, (set >>> 7) % 256])
        CMD_WRITE_ALERT_LIMIT_LOW_CLEAR [(clear >>> 15) % 256, (clear >>> 7) % 256], ?_, ?_⟩
    · rw [setAlertLimitsLow_eq]
      simp [commandDataOk, afterCommandData, TwoWire.taken, hacc]
    · simp [afterCommandData, TwoWire.taken, hacc, CMD_WRITE_ALERT_LIMIT_LOW_SET,
        CMD_WRITE_ALERT_LIMIT_LOW_CLEAR]
      decide
  · refine ⟨afterQuery (afterQuery reader CMD_READ_ALERT_LIMIT_HIGH_SET 3 0)
      CMD_READ_ALERT_LIMIT_HIGH_CLEAR 3 0, ?_⟩
    rw [readAlertLimitsHigh_eq reader entry _ _ hr1 hr2, hv1, hv2, if_pos rfl]
    simp only [List.getD_cons_zero, List.getD_cons_succ]
    rw [hd1, hd2]
  · refine ⟨afterQuery (afterQuery reader CMD_READ_ALERT_LIMIT_LOW_SET 3 0)
      CMD_READ_ALERT_LIMIT_LOW_CLEAR 3 0, ?_⟩
    rw [readAlertLimitsLow_eq reader entry _ _ hr1 hr2, hv1, hv2, if_pos rfl]
    simp only [List.getD_cons_zero, List.getD_cons_succ]
    rw [hd1, hd2]
  · rw [Prod.mk.injEq, and_FF80_eq, and_FF80_eq, Nat.mod_eq_of_lt hset, Nat.mod_eq_of_lt hclear]
    constructor
    · rintro ⟨h1, h2⟩
      constructor <;> omega
    · rintro ⟨h1, h2⟩
      constructor <;> omega

/-- Witness of C6 as amended: `set = 0x1234` comes back as `0x1200` and
`clear = 0xFFFF` as `0xFF80`. -/
theorem alertLimits_roundTrip_masked_witness :
    ((0x1234 : Nat) < 65536 ∧ (0xFFFF : Nat) < 65536 ∧
      (⟨⟨[], [], [], []⟩, 0x4A⟩ : STS3x)._pI2cBus.accepted = [] ∧
      crc8 [(0x1234 >>> 15) % 256, (0x1234 >>> 7) % 256] 2 = some 0xC3 ∧
      crc8 [(0xFFFF >>> 15) % 256, (0xFFFF >>> 7) % 256] 2 = some 0xD9) ∧
    ∃ r', readAlertLimitsHigh ⟨⟨[], [[0x00, 0x24, 0xC3], [0x01, 0xFF, 0xD9]], [], []⟩, 0x4A⟩ 0
      = some (true, 0x1200, 0xFF80, r') :=
  ⟨⟨by decide, by decide, rfl, by decide, by decide⟩,
    (alertLimits_roundTrip_masked ⟨⟨[], [], [], []⟩, 0x4A⟩
      ⟨⟨[], [[0x00, 0x24, 0xC3], [0x01, 0xFF, 0xD9]], [], []⟩, 0x4A⟩ 0x1234 0xFFFF 0xC3 0xD9 0 []
      (by decide) (by decide) rfl (by decide) (by decide) rfl).2.2.1⟩

/-- Counterexample to C6 as stated: for `set = clear = 0xFFFF` the payload
written is `[0x01, 0xFF]`, and decoding it (with its checksum `0xD9`) gives
`0xFF80`, not `0xFFFF`. -/
theorem alertLimits_roundTrip_counterexample :
    (setAlertLimitsHigh ⟨⟨[], [], [], []⟩, 0x4A⟩ 0xFFFF 0xFFFF).map
        (fun x => (x.1, x.2._pI2cBus.trace))
      = some (true,
          [BusEvent.beginTransmission 0x4A, BusEvent.write [0x61, 0x1D] 2,
           BusEvent.write [0x01, 0xFF] 2, BusEvent.endTransmission,
           BusEvent.beginTransmission 0x4A, BusEvent.write [0x61, 0x16] 2,
           BusEvent.write [0x01, 0xFF] 2, BusEvent.endTransmission]) ∧
    crc8 [0x01, 0xFF] 2 = some 0xD9 ∧
    (readAlertLimitsHigh ⟨⟨[], [[0x01, 0xFF, 0xD9], [0x01, 0xFF, 0xD9]], [], []⟩, 0x4A⟩ 0).map
        (fun x => (x.1, x.2.1, x.2.2.1))
      = some (true, 0xFF80, 0xFF80) ∧
    ((0xFF80, 0xFF80) : Nat × Nat) ≠ (0xFFFF, 0xFFFF) := by
  decide

/-- C7, as amended: `readSerial` never looks at the validation result of
its query.  Whatever the flag, it returns the big-endian value of its 4-byte
buffer, which starts as zeros and holds the bytes received in front; so it
returns 0 when no byte is received, and after a checksum mismatch or a
partial read it returns the value assembled from the bytes received. -/
theorem readSerial_ignores_validation (self : STS3x) (r : List Nat)
    (hr : self._pI2cBus.responses.headD [] = r) :
    ∃ ok buf self',
      queryCommand self CMD_READ_SERIAL [0, 0, 0, 0] 4 1000 = some (ok, buf, self') ∧
      buf = r.take 4 ++ List.replicate (4 - r.length) 0 ∧
      readSerial self
        = some ((buf.getD 0 0 <<< 24 ||| buf.getD 1 0 <<< 16 ||| buf.getD 2 0 <<< 8
            ||| buf.getD 3 0) % 2 ^ 32, self') ∧
      (r = [] → readSerial self = some (0, self')) := by
  have hq := queryCommand_eq self CMD_READ_SERIAL [0, 0, 0, 0] 4 1000 (by decide) (by decide)
  rw [hr] at hq
  have hbuf : r.take 4 ++ [0, 0, 0, 0].drop (min 4 r.length)
      = r.take 4 ++ List.replicate (4 - r.length) 0 := by
    congr 1
    rw [show ([0, 0, 0, 0] : List Nat) = List.replicate 4 0 from rfl, List.drop_replicate]
    congr 1
    omega
  have hg : ∀ i, i < 4 →
      (r.take 4 ++ List.replicate (4 - r.length) 0).getD i 0 = r.getD i 0 := by
    intro i hi
    rw [← hbuf, List.getD_eq_getElem?_getD, zeroBuffer4_get r i hi, Option.getD_some]
  refine ⟨_, _, _, hq.trans (by rw [hbuf]), rfl, ?_, ?_⟩
  · rw [readSerial_eq self r hr, hg 0 (by decide), hg 1 (by decide), hg 2 (by decide),
      hg 3 (by decide), Nat.shiftLeft_zero]
  · intro hnil
    rw [readSerial_eq self r hr, hnil]
    rfl

/-- Witness of C7 as amended: the device delivers nothing, and the serial
number reported is 0. -/
theorem readSerial_ignores_validation_witness :
    (⟨⟨[], [], [], []⟩, 0x4A⟩ : STS3x)._pI2cBus.responses.headD [] = [] ∧
    ∃ self', readSerial ⟨⟨[], [], [], []⟩, 0x4A⟩ = some (0, self') := by
  refine ⟨rfl, ?_⟩
  obtain ⟨ok, buf, self', -, -, -, h⟩ :=
    readSerial_ignores_validation ⟨⟨[], [], [], []⟩, 0x4A⟩ [] rfl
  exact ⟨self', h rfl⟩

/-- Counterexample to C7 as stated: on the response `[0x12, 0x34, 0x56,
0x78]` validation fails (checksum mismatch: `crc8([0x12, 0x34, 0x56]) = 0x8A`),
and on the short response `[0x12, 0x34]` it fails too, yet `readSerial`
returns `0x12345678` and `0x12340000`, not 0. -/
theorem readSerial_nonzero_on_failure :
    crc8 [0x12, 0x34, 0x56] 3 = some 0x8A ∧
    (queryCommand ⟨⟨[], [[0x12, 0x34, 0x56, 0x78]], [], []⟩, 0x4A⟩ CMD_READ_SERIAL
        [0, 0, 0, 0] 4 1000).map (fun x => x.1) = some false ∧
    (readSerial ⟨⟨[], [[0x12, 0x34, 0x56, 0x78]], [], []⟩, 0x4A⟩).map (fun x => x.1)
      = some 0x12345678 ∧
    (queryCommand ⟨⟨[], [[0x12, 0x34]], [], []⟩, 0x4A⟩ CMD_READ_SERIAL
        [0, 0, 0, 0] 4 1000).map (fun x => x.1) = some false ∧
    (readSerial ⟨⟨[], [[0x12, 0x34]], [], []⟩, 0x4A⟩).map (fun x => x.1)
      = some 0x12340000 := by
  decide

/-- C8 (the code departs from the claim): `readSerial` requests 4 bytes, not
6.  On the device's framing `[b0, b1, c01, b2, b3, c23]` it therefore reads
`[b0, b1, c01, b2]` and returns `(b0 << 24) | (b1 << 16) | (c01 << 8) | b2`:
the checksum byte `c01` is part of the value and `b3` is never read.  For the
serial number `0x12345678`, framed as `[0x12, 0x34, 0x37, 0x56, 0x78, 0x7D]`,
it returns `0x12343756`. -/
theorem readSerial_returns_checksum_byte :
    (∀ (accepted : List Nat) (rest : List (List Nat)) (rx : List Nat) (trace : List BusEvent)
        (addr b0 b1 c01 b2 b3 c23 : Nat),
      ∃ self',
        readSerial ⟨⟨accepted, [b0, b1, c01, b2, b3, c23] :: rest, rx, trace⟩, addr⟩
          = some ((b0 <<< 24 ||| b1 <<< 16 ||| c01 <<< 8 ||| b2) % 2 ^ 32, self') ∧
        self'._pI2cBus.trace.drop (trace.length + 3)
          = [BusEvent.delayMicroseconds 1000, BusEvent.requestFrom addr 4,
             BusEvent.readBytes 4 4]) ∧
    crc8 [0x12, 0x34] 2 = some 0x37 ∧
    crc8 [0x56, 0x78] 2 = some 0x7D ∧
    (readSerial ⟨⟨[], [[0x12, 0x34, 0x37, 0x56, 0x78, 0x7D]], [], []⟩, 0x4A⟩).map
        (fun x => x.1) = some 0x12343756 := by
  refine ⟨?_, by decide, by decide, by decide⟩
  intro accepted rest rx trace addr b0 b1 c01 b2 b3 c23
  refine ⟨_, readSerial_eq _ [b0, b1, c01, b2, b3, c23] rfl, ?_⟩
  simp [afterQuery, afterCommand]

/-- C9: for every raw code `v` in `[0, 65535]` the round trip
`convertToRaw(convertToCelsius(v))`, computed in binary32, is defined and
differs from `v` by at most 1 (it is `v` or `v - 1`); computed in exact
rational arithmetic with truncation it is `v`. -/
theorem convertToRaw_convertToCelsius (v : Nat) (hv : v < 65536) :
    (∃ r, convertToRaw (convertToCelsius v) = some r ∧ (v ≤ r + 1 ∧ r ≤ v + 1) ∧ r ≤ v) ∧
    celsiusToRawExact (rawToCelsiusExact v) = v := by
  constructor
  · obtain ⟨r, hr, h1, h2⟩ := convertToRaw_convertToCelsius_aux v hv
    exact ⟨r, hr, ⟨h1, by omega⟩, h2⟩
  · have hx : (rawToCelsiusExact v + 45) * 65535 / 175 = (v : ℚ) := by
      rw [rawToCelsiusExact]
      field_simp
      ring
    rw [celsiusToRawExact, hx, if_pos (Nat.cast_nonneg v)]
    exact Int.floor_natCast v

/-- Witness of C9: the raw code 12345. -/
theorem convertToRaw_convertToCelsius_witness :
    12345 < 65536 ∧
    ((∃ r, convertToRaw (convertToCelsius 12345) = some r ∧
        (12345 ≤ r + 1 ∧ r ≤ 12345 + 1) ∧ r ≤ 12345) ∧
      celsiusToRawExact (rawToCelsiusExact 12345) = (12345 : Nat)) :=
  ⟨by decide, convertToRaw_convertToCelsius 12345 (by decide)⟩

/-- C10: for every 16-bit raw code `v`, `convertToCelsius(v)` is
`v * 175 / 65535 - 45` evaluated in binary32, the product `v * 175` being
computed in 32 bits without overflow (`v * 175 ≤ 11468625 < 2^32`); the
result is finite and within `2^-16` of the exact value of the formula;
`convertToCelsius(0) = -45` and `convertToCelsius(65535) = 130` exactly. -/
theorem convertToCelsius_formula (v : Nat) (hv : v < 65536) :
    (v * 175 ≤ 11468625 ∧ 11468625 < 2 ^ 32 ∧ (v * 175) % 2 ^ 32 = v * 175) ∧
    convertToCelsius v
      = Binary32.sub
          (Binary32.div (Binary32.ofNat (v * 175)) (Binary32.finite 65535))
          (Binary32.ofNat 45) ∧
    (∃ q : ℚ, convertToCelsius v = Binary32.finite q ∧
      |q - ((v : ℚ) * 175 / 65535 - 45)| ≤ 1 / 65536) ∧
    convertToCelsius 0 = Binary32.finite (-45) ∧
    convertToCelsius 65535 = Binary32.finite 130 := by
  have hmod : (v * 175) % 2 ^ 32 = v * 175 := Nat.mod_eq_of_lt (by omega)
  refine ⟨⟨by omega, by norm_num, hmod⟩, ?_, ?_, convertToCelsius_zero, convertToCelsius_max⟩
  · rw [convertToCelsius, hmod]
  · exact convertToCelsius_bound v hv

/-- Witness of C10: the raw code 12345. -/
theorem convertToCelsius_formula_witness :
    12345 < 65536 ∧
    ∃ q : ℚ, convertToCelsius 12345 = Binary32.finite q ∧
      |q - ((12345 : ℚ) * 175 / 65535 - 45)| ≤ 1 / 65536 := by
  refine ⟨by decide, ?_⟩
  obtain ⟨q, h1, h2⟩ := (convertToCelsius_formula 12345 (by decide)).2.2.1
  exact ⟨q, h1, by exact_mod_cast h2⟩

/-! ## Claims, continued -/

/-- The binary32 evaluation of `(c + 45.0f) * 65535.0f / 175.0f` for
`-45 ≤ c ≤ 130`: it is finite, within `1/128` of the exact value, above `-1`
and below `65536`. -/
theorem convertToRaw_value_bound (q : ℚ) (h1 : -45 ≤ q) (h2 : q ≤ 130) :
    ∃ y : ℚ,
      Binary32.div
          (Binary32.mul (Binary32.add (Binary32.finite q) (Binary32.finite 45))
            (Binary32.finite 65535))
          (Binary32.finite 175) = Binary32.finite y ∧
      |y - (q + 45) * 65535 / 175| ≤ 1 / 128 ∧ -1 < y ∧ y < 65536 := by
  obtain ⟨m3, hm3, he3⟩ := ofRat_error (q + 45) 8
    (by rw [abs_lt]; norm_num; constructor <;> linarith) (by norm_num) (by norm_num)
  have hp17 : (2 : ℚ) ^ ((8 : ℤ) - 25) = 1 / 131072 := by norm_num
  rw [hp17, abs_le] at he3
  obtain ⟨m4, hm4, he4⟩ := ofRat_error (m3 * 65535) 24
    (by rw [abs_lt]; norm_num; constructor <;> linarith) (by norm_num) (by norm_num)
  have hp1 : (2 : ℚ) ^ ((24 : ℤ) - 25) = 1 / 2 := by norm_num
  rw [hp1, abs_le] at he4
  have h4lo : (q + 45) * 65535 - 1 ≤ m4 := by linarith
  have h4hi : m4 ≤ (q + 45) * 65535 + 1 := by linarith
  obtain ⟨m5, hm5, he5⟩ := ofRat_error (m4 / 175) 16
    (by
      rw [abs_lt]
      constructor
      · rw [lt_div_iff₀ (by norm_num)]; norm_num; linarith
      · rw [div_lt_iff₀ (by norm_num)]; norm_num; linarith)
    (by norm_num) (by norm_num)
  have hp9 : (2 : ℚ) ^ ((16 : ℤ) - 25) = 1 / 512 := by norm_num
  rw [hp9, abs_le] at he5
  have hdlo : (q + 45) * 65535 / 175 - 1 / 175 ≤ m4 / 175 := by
    rw [le_div_iff₀ (by norm_num)]; linarith
  have hdhi : m4 / 175 ≤ (q + 45) * 65535 / 175 + 1 / 175 := by
    rw [div_le_iff₀ (by norm_num)]; linarith
  have hx0 : 0 ≤ (q + 45) * 65535 / 175 := by
    apply div_nonneg _ (by norm_num)
    nlinarith
  have hx1 : (q + 45) * 65535 / 175 ≤ 65535 := by
    rw [div_le_iff₀ (by norm_num)]; linarith
  refine ⟨m5, ?_, ?_, by linarith, by linarith⟩
  · simp only [Binary32.add, Binary32.mul, Binary32.div]
    rw [hm3]
    simp only [Binary32.mul]
    rw [hm4]
    simp only [Binary32.div]
    rw [if_neg (by norm_num), hm5]
  · rw [abs_le]
    constructor <;> linarith

theorem convertToRaw_min : convertToRaw (Binary32.finite (-45)) = some 0 := by
  have h0 : ofRat 0 = finite 0 := by rw [ofRat, if_pos rfl]
  have ha : Binary32.add (Binary32.finite (-45)) (Binary32.finite 45) = finite 0 := by
    simp only [Binary32.add]
    rw [show (-45 : ℚ) + 45 = 0 by norm_num, h0]
  have hb : Binary32.mul (Binary32.finite 0) (Binary32.finite 65535) = finite 0 := by
    simp only [Binary32.mul]
    rw [zero_mul, h0]
  have hc : Binary32.div (Binary32.finite 0) (Binary32.finite 175) = finite 0 := by
    simp only [Binary32.div]
    rw [if_neg (by norm_num), zero_div, h0]
  have hd : toUInt16 (finite 0) = some 0 := by
    simp [toUInt16]
  rw [convertToRaw, ha, hb, hc, hd]

theorem convertToRaw_max : convertToRaw (Binary32.finite 130) = some 65535 := by
  have ha : Binary32.add (Binary32.finite 130) (Binary32.finite 45) = finite 175 := by
    have h175 : ofRat 175 = finite 175 := by
      have h := ofRat_intCast 175 (by norm_num)
      exact_mod_cast h
    simp only [Binary32.add]
    rw [show (130 : ℚ) + 45 = 175 by norm_num, h175]
  have hb : Binary32.mul (Binary32.finite 175) (Binary32.finite 65535)
      = finite 11468625 := by
    have hprod : ofRat 11468625 = finite 11468625 := by
      have h := ofRat_intCast 11468625 (by norm_num)
      exact_mod_cast h
    simp only [Binary32.mul]
    rw [show (175 : ℚ) * 65535 = 11468625 by norm_num, hprod]
  have hc : Binary32.div (Binary32.finite 11468625) (Binary32.finite 175)
      = finite 65535 := by
    have hmax : ofRat 65535 = finite 65535 := by
      have h := ofRat_intCast 65535 (by norm_num)
      exact_mod_cast h
    simp only [Binary32.div]
    rw [if_neg (by norm_num), show (11468625 : ℚ) / 175 = 65535 by norm_num, hmax]
  have hd : toUInt16 (finite 65535) = some 65535 := by
    have hfloor : ⌊(65535 : ℚ)⌋ = 65535 := by
      have h : ⌊((65535 : ℤ) : ℚ)⌋ = 65535 := Int.floor_intCast 65535
      exact_mod_cast h
    simp [toUInt16, hfloor]
  rw [convertToRaw, ha, hb, hc, hd]

/-- C11, as amended: for every Celsius value `c` with `-45 ≤ c ≤ 130`,
`convertToRaw(c)` is defined and lies in `[0, 65535]`, so the narrowing to
`uint16_t` loses nothing. It is `(c + 45) * 65535 / 175` evaluated in binary32
and truncated toward zero: the value `y` before truncation is within `1/128`
of the exact value `x` of the formula, so the result equals `x` truncated
toward zero whenever `x` is at least `1/128` away from the integers on either
side (`⌊x⌋ + 1/128 ≤ x < ⌊x⌋ + 1 - 1/128`) and is within 1 of it otherwise;
`convertToRaw(-45) = 0` and `convertToRaw(130) = 65535`. -/
theorem convertToRaw_formula (q : ℚ) (h1 : -45 ≤ q) (h2 : q ≤ 130) :
    (∃ (y : ℚ) (r : Nat),
      Binary32.div
          (Binary32.mul (Binary32.add (Binary32.finite q) (Binary32.finite 45))
            (Binary32.finite 65535))
          (Binary32.finite 175) = Binary32.finite y ∧
      |y - (q + 45) * 65535 / 175| ≤ 1 / 128 ∧
      convertToRaw (Binary32.finite q) = some r ∧
      (r : ℤ) = (if 0 ≤ y then ⌊y⌋ else -⌊-y⌋) ∧
      r ≤ 65535 ∧
      celsiusToRawExact q - 1 ≤ (r : ℤ) ∧ (r : ℤ) ≤ celsiusToRawExact q + 1 ∧
      ((⌊(q + 45) * 65535 / 175⌋ : ℚ) + 1 / 128 ≤ (q + 45) * 65535 / 175 ∧
          (q + 45) * 65535 / 175 + 1 / 128 < (⌊(q + 45) * 65535 / 175⌋ : ℚ) + 1 →
        (r : ℤ) = celsiusToRawExact q)) ∧
    convertToRaw (Binary32.finite (-45)) = some 0 ∧
    convertToRaw (Binary32.finite 130) = some 65535 := by
  refine ⟨?_, ?_, ?_⟩
  · obtain ⟨y, hy, herr, hlo, hhi⟩ := convertToRaw_value_bound q h1 h2
    rw [abs_le] at herr
    have hx0 : 0 ≤ (q + 45) * 65535 / 175 := by
      apply div_nonneg _ (by norm_num)
      nlinarith
    have hexact : celsiusToRawExact q = ⌊(q + 45) * 65535 / 175⌋ := by
      rw [celsiusToRawExact, if_pos hx0]
    have hfx := Int.floor_le ((q + 45) * 65535 / 175)
    have hfx2 := Int.lt_floor_add_one ((q + 45) * 65535 / 175)
    by_cases hpos : 0 ≤ y
    · have hf0 : 0 ≤ ⌊y⌋ := Int.floor_nonneg.mpr hpos
      have hf1 : ⌊y⌋ < 65536 := by
        rw [Int.floor_lt]; push_cast; exact hhi
      have hf2 : ⌊(q + 45) * 65535 / 175⌋ - 1 ≤ ⌊y⌋ := by
        rw [Int.le_floor]; push_cast; linarith
      have hf3 : ⌊y⌋ < ⌊(q + 45) * 65535 / 175⌋ + 2 := by
        rw [Int.floor_lt]; push_cast; linarith
      refine ⟨y, ⌊y⌋.toNat, hy, abs_le.mpr herr, ?_, ?_, ?_, ?_, ?_, ?_⟩
      · rw [convertToRaw, hy, toUInt16, if_pos hpos, if_pos ⟨hf0, by omega⟩]
      · rw [if_pos hpos]; omega
      · omega
      · rw [hexact]; omega
      · rw [hexact]; omega
      · rintro ⟨hm1, hm2⟩
        have hfy : ⌊y⌋ = ⌊(q + 45) * 65535 / 175⌋ := by
          rw [Int.floor_eq_iff]
          constructor
          · linarith
          · linarith
        rw [hexact]; omega
    · have hneg : y < 0 := not_le.mp hpos
      have hfl : ⌊-y⌋ = 0 := by
        rw [Int.floor_eq_iff]
        constructor
        · push_cast; linarith
        · push_cast; linarith
      have hx1 : ⌊(q + 45) * 65535 / 175⌋ = 0 := by
        rw [Int.floor_eq_iff]
        constructor
        · push_cast; linarith
        · push_cast; linarith
      refine ⟨y, 0, hy, abs_le.mpr herr, ?_, ?_, by norm_num, ?_, ?_, ?_⟩
      · rw [convertToRaw, hy, toUInt16, if_neg hpos, hfl]
        rfl
      · rw [if_neg hpos, hfl]; rfl
      · rw [hexact, hx1]; norm_num
      · rw [hexact, hx1]; norm_num
      · intro _
        rw [hexact, hx1]; norm_num
  · exact convertToRaw_min
  · exact convertToRaw_max

/-- Witness of C11: the Celsius value 25. -/
theorem convertToRaw_formula_witness :
    ((-45 : ℚ) ≤ 25 ∧ (25 : ℚ) ≤ 130) ∧
    ∃ r : Nat, convertToRaw (Binary32.finite 25) = some r ∧ r ≤ 65535 ∧
      celsiusToRawExact 25 - 1 ≤ (r : ℤ) ∧ (r : ℤ) ≤ celsiusToRawExact 25 + 1 := by
  refine ⟨⟨by norm_num, by norm_num⟩, ?_⟩
  obtain ⟨⟨y, r, -, -, h3, -, h5, h6, h7, -⟩, -, -⟩ :=
    convertToRaw_formula 25 (by norm_num) (by norm_num)
  exact ⟨r, h3, h5, h6, h7⟩

/-- The Celsius value 26.15625 is a binary32 value. -/
theorem ofRat_celsius_sample : ofRat (837 / 32) = finite (837 / 32) := by
  have h := ofRat_of_binade (837 / 32) 4 13713408
    (by rw [abs_of_pos (by norm_num)]; norm_num)
    (by rw [abs_of_pos (by norm_num)]; norm_num)
    (by norm_num) (by norm_num) (by rw [abs_lt]; constructor <;> norm_num)
  rw [h]
  congr 1
  norm_num

/-- The sum `26.15625f + 45.0f` is exact: 71.15625. -/
theorem convertToRaw_sample_add :
    Binary32.add (Binary32.finite (837 / 32)) (Binary32.finite 45) = finite (2277 / 32) := by
  have h := ofRat_of_binade (2277 / 32) 6 9326592
    (by rw [abs_of_pos (by norm_num)]; norm_num)
    (by rw [abs_of_pos (by norm_num)]; norm_num)
    (by norm_num) (by norm_num) (by rw [abs_lt]; constructor <;> norm_num)
  have hv : ((9326592 : ℤ) : ℚ) * 2 ^ ((6 : ℤ) - 23) = 2277 / 32 := by norm_num
  rw [hv] at h
  simp only [Binary32.add]
  rw [show (837 / 32 : ℚ) + 45 = 2277 / 32 by norm_num, h]

/-- The product `71.15625f * 65535.0f` is 4663224.84375 exactly; binary32 has
spacing `1/2` there and rounds it up to 4663225. -/
theorem convertToRaw_sample_mul :
    Binary32.mul (Binary32.finite (2277 / 32)) (Binary32.finite 65535) = finite 4663225 := by
  have h := ofRat_of_binade (149223195 / 32) 22 9326450
    (by rw [abs_of_pos (by norm_num)]; norm_num)
    (by rw [abs_of_pos (by norm_num)]; norm_num)
    (by norm_num)
    (by rw [abs_lt]; norm_num)
    (by norm_num)
  have hv : ((9326450 : ℤ) : ℚ) * 2 ^ ((22 : ℤ) - 23) = 4663225 := by norm_num
  rw [hv] at h
  simp only [Binary32.mul]
  rw [show (2277 / 32 : ℚ) * 65535 = 149223195 / 32 by norm_num, h]

/-- The quotient `4663225.0f / 175.0f` is exactly 26647. -/
theorem convertToRaw_sample_div :
    Binary32.div (Binary32.finite 4663225) (Binary32.finite 175) = finite 26647 := by
  have hq : ofRat 26647 = finite 26647 := by
    have h := ofRat_intCast 26647 (by norm_num)
    exact_mod_cast h
  simp only [Binary32.div]
  rw [if_neg (by norm_num), show (4663225 : ℚ) / 175 = 26647 by norm_num, hq]

theorem convertToRaw_sample_trunc : toUInt16 (finite 26647) = some 26647 := by
  have hfloor : ⌊(26647 : ℚ)⌋ = 26647 := by
    have h : ⌊((26647 : ℤ) : ℚ)⌋ = 26647 := Int.floor_intCast 26647
    exact_mod_cast h
  simp [toUInt16, hfloor]

/-- The exact formula at 26.15625 is `149223195 / 5600 = 26646.999...`, which
truncates to 26646. -/
theorem celsiusToRawExact_sample : celsiusToRawExact (837 / 32) = 26646 := by
  have hx : ((837 / 32 : ℚ) + 45) * 65535 / 175 = 149223195 / 5600 := by norm_num
  rw [celsiusToRawExact, hx, if_pos (by norm_num), Int.floor_eq_iff]
  constructor <;> norm_num

/-- Counterexample to C11 as stated: the Celsius value 26.15625 is a binary32
value in `[-45, 130]`, `convertToRaw(26.15625)` is 26647, but
`(26.15625 + 45) * 65535 / 175` truncated toward zero is 26646. -/
theorem convertToRaw_formula_counterexample :
    ((-45 : ℚ) ≤ 837 / 32 ∧ (837 / 32 : ℚ) ≤ 130) ∧
    Binary32.ofRat (837 / 32) = Binary32.finite (837 / 32) ∧
    convertToRaw (Binary32.finite (837 / 32)) = some 26647 ∧
    celsiusToRawExact (837 / 32) = 26646 ∧
    convertToRaw (Binary32.finite (837 / 32))
      ≠ some (celsiusToRawExact (837 / 32)).toNat := by
  have hraw : convertToRaw (Binary32.finite (837 / 32)) = some 26647 := by
    rw [convertToRaw, convertToRaw_sample_add, convertToRaw_sample_mul,
      convertToRaw_sample_div, convertToRaw_sample_trunc]
  refine ⟨⟨by norm_num, by norm_num⟩, ofRat_celsius_sample, hraw,
    celsiusToRawExact_sample, ?_⟩
  rw [hraw, celsiusToRawExact_sample]
  decide

theorem command_bytes (command : Nat) (hcmd : command < 65536) :
    (command >>> 8) % 256 = command >>> 8 ∧ (command &&& 0xFF) % 256 = command &&& 0xFF := by
  constructor
  · apply Nat.mod_eq_of_lt
    rw [Nat.shiftRight_eq_div_pow]
    omega
  · apply Nat.mod_eq_of_lt
    exact Nat.lt_of_le_of_lt Nat.and_le_right (by decide)

theorem reset_eq (self : STS3x) :
    reset self = some
      { _i2c_addr := self._i2c_addr,
        _pI2cBus := (afterCommand self CMD_SOFTRESET)._pI2cBus.delay 1 } := by
  rw [reset, writeCommand_nil]
  rfl

theorem stopConversion_eq (self : STS3x) :
    stopConversion self = some
      { _i2c_addr := self._i2c_addr,
        _pI2cBus := (afterCommand self CMD_BREAK)._pI2cBus.delay 1 } := by
  rw [stopConversion, writeCommand_nil]
  rfl

/-- C12: for every 16-bit command and every payload, `writeCommand` performs
one transaction to the configured address in which it offers the bytes
`[command >> 8, command & 0xFF]` and then, when the payload is not empty, the
payload bytes unchanged, nothing after them; it returns true if and only if
the bus took both command bytes and, when the payload is not empty, all
payload bytes.  `reset` emits `[0x30, 0xA2]`, `stopConversion` emits
`[0x30, 0x93]`, `readStatus` emits `[0xF3, 0x2D]`. -/
theorem writeCommand_frame (self : STS3x) (command : Nat) (data : List Nat)
    (hcmd : command < 65536) :
    (∃ ok self',
      writeCommand self command data data.length = some (ok, self') ∧
      self'._i2c_addr = self._i2c_addr ∧
      self'._pI2cBus.trace = self._pI2cBus.trace ++
        ([BusEvent.beginTransmission self._i2c_addr,
          BusEvent.write [command >>> 8, command &&& 0xFF] (self._pI2cBus.taken 2)] ++
         (if data = [] then []
          else [BusEvent.write data
            (({ self._pI2cBus with accepted := self._pI2cBus.accepted.tail } : TwoWire).taken
              data.length)]) ++
         [BusEvent.endTransmission]) ∧
      (ok = true ↔ self._pI2cBus.taken 2 = 2 ∧
        (data ≠ [] →
          ({ self._pI2cBus with accepted := self._pI2cBus.accepted.tail } : TwoWire).taken
            data.length = data.length))) ∧
    (∃ self', reset self = some self' ∧
      self'._pI2cBus.trace = self._pI2cBus.trace ++
        [BusEvent.beginTransmission self._i2c_addr,
         BusEvent.write [0x30, 0xA2] (self._pI2cBus.taken 2),
         BusEvent.endTransmission, BusEvent.delay 1]) ∧
    (∃ self', stopConversion self = some self' ∧
      self'._pI2cBus.trace = self._pI2cBus.trace ++
        [BusEvent.beginTransmission self._i2c_addr,
         BusEvent.write [0x30, 0x93] (self._pI2cBus.taken 2),
         BusEvent.endTransmission, BusEvent.delay 1]) ∧
    (∃ ok status self', readStatus self = some (ok, status, self') ∧
      self'._pI2cBus.trace.take (self._pI2cBus.trace.length + 3)
        = self._pI2cBus.trace ++
          [BusEvent.beginTransmission self._i2c_addr,
           BusEvent.write [0xF3, 0x2D] (self._pI2cBus.taken 2),
           BusEvent.endTransmission]) := by
  obtain ⟨hb1, hb2⟩ := command_bytes command hcmd
  refine ⟨?_, ?_, ?_, ?_⟩
  · by_cases hdata : data = []
    · subst hdata
      refine ⟨_, _, writeCommand_nil self command, rfl, ?_, ?_⟩
      · simp [afterCommand, hb1, hb2]
      · simp
    · refine ⟨_, _, writeCommand_data self command data hdata, rfl, ?_, ?_⟩
      · simp [afterCommandData, hb1, hb2, hdata]
      · simp [commandDataOk, hdata]
  · have e : (12450 &&& 255) % 256 = 162 := by decide
    exact ⟨_, reset_eq self, by simp [afterCommand, TwoWire.delay, CMD_SOFTRESET, e]⟩
  · have e : (12435 &&& 255) % 256 = 147 := by decide
    exact ⟨_, stopConversion_eq self, by simp [afterCommand, TwoWire.delay, CMD_BREAK, e]⟩
  · have e : (62253 &&& 255) % 256 = 45 := by decide
    refine ⟨_, _, _, readStatus_eq self _ rfl, ?_⟩
    simp [afterQuery, afterCommand, CMD_READ_STATUS, e, List.take_append]

/-- Witness of C12: the command `0x611D` with the payload `[0x24, 0x00]` on a
bus that takes every byte. -/
theorem writeCommand_frame_witness :
    (0x611D : Nat) < 65536 ∧
    ∃ self', writeCommand ⟨⟨[], [], [], []⟩, 0x4A⟩ 0x611D [0x24, 0x00] 2 = some (true, self') ∧
      self'._pI2cBus.trace =
        [BusEvent.beginTransmission 0x4A, BusEvent.write [0x61, 0x1D] 2,
         BusEvent.write [0x24, 0x00] 2, BusEvent.endTransmission] := by
  refine ⟨by decide, ?_⟩
  obtain ⟨⟨ok, self', h1, -, h3, h4⟩, -⟩ :=
    writeCommand_frame ⟨⟨[], [], [], []⟩, 0x4A⟩ 0x611D [0x24, 0x00] (by decide)
  have hok : ok = true := h4.mpr ⟨by decide, fun _ => by decide⟩
  exact ⟨self', hok ▸ h1, h3⟩

theorem readTemp_post (self : STS3x) (repeatability : Repeatability) (ok : Bool) (v : Nat)
    (post : STS3x) (h : readTempRaw self repeatability = some (ok, v, post)) :
    (∃ t, readTemp self repeatability = some (t, post)) ∧
    readTempRaw16 self repeatability = some (v, post) := by
  constructor
  · rw [readTemp, h]
    cases ok
    · exact ⟨_, rfl⟩
    · exact ⟨_, rfl⟩
  · rw [readTempRaw16, h]
    rfl

theorem fetchTemp_post (self : STS3x) (ok : Bool) (v : Nat) (post : STS3x)
    (h : fetchTempRaw self = some (ok, v, post)) :
    (∃ t, fetchTemp self = some (t, post)) ∧ fetchTempRaw16 self = some (v, post) := by
  constructor
  · rw [fetchTemp, h]
    cases ok
    · exact ⟨_, rfl⟩
    · exact ⟨_, rfl⟩
  · rw [fetchTempRaw16, h]
    rfl

/-- C13: for each repeatability the single-shot read (`readTempRaw`, and
`readTemp` and the raw accessor built on it) issues the matching measurement
command, waits the matching settling delay, then requests 3 bytes: High is
command `0x2400` and 15000 microseconds, Medium `0x240B` and 6000, Low
`0x2416` and 4000, each delay below `2^16`; `fetchTempRaw` (and `fetchTemp`
and the raw accessor) issue `0xE000` with a delay of 0. -/
theorem singleShot_command_and_delay (self : STS3x) :
    (∃ ok v self', readTempRaw self Repeatability.REP_HIGH = some (ok, v, self') ∧
      (∃ t, readTemp self Repeatability.REP_HIGH = some (t, self')) ∧
      readTempRaw16 self Repeatability.REP_HIGH = some (v, self') ∧
      self'._pI2cBus.trace = self._pI2cBus.trace ++
        [BusEvent.beginTransmission self._i2c_addr,
         BusEvent.write [0x24, 0x00] (self._pI2cBus.taken 2),
         BusEvent.endTransmission,
         BusEvent.delayMicroseconds 15000,
         BusEvent.requestFrom self._i2c_addr 3,
         BusEvent.readBytes 3 (min 3 (self._pI2cBus.responses.headD []).length)]) ∧
    (∃ ok v self', readTempRaw self Repeatability.REP_MEDIUM = some (ok, v, self') ∧
      (∃ t, readTemp self Repeatability.REP_MEDIUM = some (t, self')) ∧
      readTempRaw16 self Repeatability.REP_MEDIUM = some (v, self') ∧
      self'._pI2cBus.trace = self._pI2cBus.trace ++
        [BusEvent.beginTransmission self._i2c_addr,
         BusEvent.write [0x24, 0x0B] (self._pI2cBus.taken 2),
         BusEvent.endTransmission,
         BusEvent.delayMicroseconds 6000,
         BusEvent.requestFrom self._i2c_addr 3,
         BusEvent.readBytes 3 (min 3 (self._pI2cBus.responses.headD []).length)]) ∧
    (∃ ok v self', readTempRaw self Repeatability.REP_LOW = some (ok, v, self') ∧
      (∃ t, readTemp self Repeatability.REP_LOW = some (t, self')) ∧
      readTempRaw16 self Repeatability.REP_LOW = some (v, self') ∧
      self'._pI2cBus.trace = self._pI2cBus.trace ++
        [BusEvent.beginTransmission self._i2c_addr,
         BusEvent.write [0x24, 0x16] (self._pI2cBus.taken 2),
         BusEvent.endTransmission,
         BusEvent.delayMicroseconds 4000,
         BusEvent.requestFrom self._i2c_addr 3,
         BusEvent.readBytes 3 (min 3 (self._pI2cBus.responses.headD []).length)]) ∧
    (∃ ok v self', fetchTempRaw self = some (ok, v, self') ∧
      (∃ t, fetchTemp self = some (t, self')) ∧
      fetchTempRaw16 self = some (v, self') ∧
      self'._pI2cBus.trace = self._pI2cBus.trace ++
        [BusEvent.beginTransmission self._i2c_addr,
         BusEvent.write [0xE0, 0x00] (self._pI2cBus.taken 2),
         BusEvent.endTransmission,
         BusEvent.delayMicroseconds 0,
         BusEvent.requestFrom self._i2c_addr 3,
         BusEvent.readBytes 3 (min 3 (self._pI2cBus.responses.headD []).length)]) ∧
    (15000 < 2 ^ 16 ∧ 6000 < 2 ^ 16 ∧ 4000 < 2 ^ 16) := by
  have e1 : (9216 &&& 255) % 256 = 0 := by decide
  have e2 : (9227 &&& 255) % 256 = 11 := by decide
  have e3 : (9238 &&& 255) % 256 = 22 := by decide
  have e4 : (57344 &&& 255) % 256 = 0 := by decide
  refine ⟨?_, ?_, ?_, ?_, by decide⟩
  · have h := readTempRaw_eq self Repeatability.REP_HIGH _ rfl
    obtain ⟨ht, h16⟩ := readTemp_post self _ _ _ _ h
    refine ⟨_, _, _, h, ht, h16, ?_⟩
    simp [afterQuery, afterCommand, CMD_MEASURE_HIGH_REAPEATABILITY, e1]
  · have h := readTempRaw_eq self Repeatability.REP_MEDIUM _ rfl
    obtain ⟨ht, h16⟩ := readTemp_post self _ _ _ _ h
    refine ⟨_, _, _, h, ht, h16, ?_⟩
    simp [afterQuery, afterCommand, CMD_MEASURE_MEDIUM_REAPEATABILITY, e2]
  · have h := readTempRaw_eq self Repeatability.REP_LOW _ rfl
    obtain ⟨ht, h16⟩ := readTemp_post self _ _ _ _ h
    refine ⟨_, _, _, h, ht, h16, ?_⟩
    simp [afterQuery, afterCommand, CMD_MEASURE_LOW_REAPEATABILITY, e3]
  · have h := fetchTempRaw_eq self _ rfl
    obtain ⟨ht, h16⟩ := fetchTemp_post self _ _ _ h
    refine ⟨_, _, _, h, ht, h16, ?_⟩
    simp [afterQuery, afterCommand, CMD_FETCH_PERIODIC_RESULT, e4]

/-- C14: `readAlertLimitsHigh` and `readAlertLimitsLow` fail fast.  If the
first (set-point) query fails, the function returns false, the trace holds
one command and one request only (no second query), the caller's `clear` is
unchanged and `set` is the value decoded from the buffer (the bytes
received, zero where none arrived); if the first query succeeds, the second
(clear-point) query is issued and the flag returned is its validation
result. -/
theorem readAlertLimits_fail_fast (self : STS3x) (clear : Nat) (r1 r2 : List Nat)
    (hr1 : self._pI2cBus.responses.headD [] = r1)
    (hr2 : self._pI2cBus.responses.tail.headD [] = r2) :
    (¬ (3 ≤ r1.length ∧ crc8 r1 2 = r1[2]?) →
      ∃ self', readAlertLimitsHigh self clear
          = some (false, (r1.getD 0 0 <<< 15 ||| r1.getD 1 0 <<< 7) % 2 ^ 16, clear, self') ∧
        self'._pI2cBus.trace = self._pI2cBus.trace ++
          [BusEvent.beginTransmission self._i2c_addr,
           BusEvent.write [0xE1, 0x1F] (self._pI2cBus.taken 2),
           BusEvent.endTransmission,
           BusEvent.delayMicroseconds 0,
           BusEvent.requestFrom self._i2c_addr 3,
           BusEvent.readBytes 3 (min 3 r1.length)]) ∧
    ((3 ≤ r1.length ∧ crc8 r1 2 = r1[2]?) →
      ∃ ok clear' self', readAlertLimitsHigh self clear
          = some (ok, (r1.getD 0 0 <<< 15 ||| r1.getD 1 0 <<< 7) % 2 ^ 16, clear', self') ∧
        (ok = true ↔ 3 ≤ r2.length ∧ crc8 r2 2 = r2[2]?) ∧
        self'._pI2cBus.trace = self._pI2cBus.trace ++
          [BusEvent.beginTransmission self._i2c_addr,
           BusEvent.write [0xE1, 0x1F] (self._pI2cBus.taken 2),
           BusEvent.endTransmission,
           BusEvent.delayMicroseconds 0,
           BusEvent.requestFrom self._i2c_addr 3,
           BusEvent.readBytes 3 (min 3 r1.length),
           BusEvent.beginTransmission self._i2c_addr,
           BusEvent.write [0xE1, 0x14]
             (({ self._pI2cBus with accepted := self._pI2cBus.accepted.tail } : TwoWire).taken 2),
           BusEvent.endTransmission,
           BusEvent.delayMicroseconds 0,
           BusEvent.requestFrom self._i2c_addr 3,
           BusEvent.readBytes 3 (min 3 r2.length)]) ∧
    (¬ (3 ≤ r1.length ∧ crc8 r1 2 = r1[2]?) →
      ∃ self', readAlertLimitsLow self clear
          = some (false, (r1.getD 0 0 <<< 15 ||| r1.getD 1 0 <<< 7) % 2 ^ 16, clear, self') ∧
        self'._pI2cBus.trace = self._pI2cBus.trace ++
          [BusEvent.beginTransmission self._i2c_addr,
           BusEvent.write [0xE1, 0x02] (self._pI2cBus.taken 2),
           BusEvent.endTransmission,
           BusEvent.delayMicroseconds 0,
           BusEvent.requestFrom self._i2c_addr 3,
           BusEvent.readBytes 3 (min 3 r1.length)]) ∧
    ((3 ≤ r1.length ∧ crc8 r1 2 = r1[2]?) →
      ∃ ok clear' self', readAlertLimitsLow self clear
          = some (ok, (r1.getD 0 0 <<< 15 ||| r1.getD 1 0 <<< 7) % 2 ^ 16, clear', self') ∧
        (ok = true ↔ 3 ≤ r2.length ∧ crc8 r2 2 = r2[2]?) ∧
        self'._pI2cBus.trace = self._pI2cBus.trace ++
          [BusEvent.beginTransmission self._i2c_addr,
           BusEvent.write [0xE1, 0x02] (self._pI2cBus.taken 2),
           BusEvent.endTransmission,
           BusEvent.delayMicroseconds 0,
           BusEvent.requestFrom self._i2c_addr 3,
           BusEvent.readBytes 3 (min 3 r1.length),
           BusEvent.beginTransmission self._i2c_addr,
           BusEvent.write [0xE1, 0x09]
             (({ self._pI2cBus with accepted := self._pI2cBus.accepted.tail } : TwoWire).taken 2),
           BusEvent.endTransmission,
           BusEvent.delayMicroseconds 0,
           BusEvent.requestFrom self._i2c_addr 3,
           BusEvent.readBytes 3 (min 3 r2.length)]) := by
  have e1 : (57631 &&& 255) % 256 = 31 := by decide
  have e2 : (57620 &&& 255) % 256 = 20 := by decide
  have e3 : (57602 &&& 255) % 256 = 2 := by decide
  have e4 : (57609 &&& 255) % 256 = 9 := by decide
  subst hr1
  subst hr2
  refine ⟨?_, ?_, ?_, ?_⟩
  · intro hbad
    have hv : frameValid (self._pI2cBus.responses.headD []) 3 = false := by
      rw [Bool.eq_false_iff, ne_eq, frameValid_iff]; exact hbad
    have h := readAlertLimitsHigh_eq self clear _ _ rfl rfl
    rw [hv] at h
    refine ⟨_, h, ?_⟩
    simp [afterQuery, afterCommand, CMD_READ_ALERT_LIMIT_HIGH_SET, e1]
  · intro hgood
    have hv : frameValid (self._pI2cBus.responses.headD []) 3 = true := (frameValid_iff _ 3).mpr hgood
    have h := readAlertLimitsHigh_eq self clear _ _ rfl rfl
    rw [hv, if_pos rfl] at h
    refine ⟨_, _, _, h, frameValid_iff _ 3, ?_⟩
    simp [afterQuery, afterCommand, TwoWire.taken, CMD_READ_ALERT_LIMIT_HIGH_SET,
      CMD_READ_ALERT_LIMIT_HIGH_CLEAR, e1, e2]
  · intro hbad
    have hv : frameValid (self._pI2cBus.responses.headD []) 3 = false := by
      rw [Bool.eq_false_iff, ne_eq, frameValid_iff]; exact hbad
    have h := readAlertLimitsLow_eq self clear _ _ rfl rfl
    rw [hv] at h
    refine ⟨_, h, ?_⟩
    simp [afterQuery, afterCommand, CMD_READ_ALERT_LIMIT_LOW_SET, e3]
  · intro hgood
    have hv : frameValid (self._pI2cBus.responses.headD []) 3 = true := (frameValid_iff _ 3).mpr hgood
    have h := readAlertLimitsLow_eq self clear _ _ rfl rfl
    rw [hv, if_pos rfl] at h
    refine ⟨_, _, _, h, frameValid_iff _ 3, ?_⟩
    simp [afterQuery, afterCommand, TwoWire.taken, CMD_READ_ALERT_LIMIT_LOW_SET,
      CMD_READ_ALERT_LIMIT_LOW_CLEAR, e3, e4]

/-- Witness of C14: the device answers nothing to the first query; the read
fails after one query and `clear` keeps its value 7. -/
theorem readAlertLimits_fail_fast_witness :
    ((⟨⟨[], [], [], []⟩, 0x4A⟩ : STS3x)._pI2cBus.responses.headD [] = [] ∧
      (⟨⟨[], [], [], []⟩, 0x4A⟩ : STS3x)._pI2cBus.responses.tail.headD [] = []) ∧
    ∃ self', readAlertLimitsHigh ⟨⟨[], [], [], []⟩, 0x4A⟩ 7 = some (false, 0, 7, self') ∧
      self'._pI2cBus.trace =
        [BusEvent.beginTransmission 0x4A, BusEvent.write [0xE1, 0x1F] 2,
         BusEvent.endTransmission, BusEvent.delayMicroseconds 0,
         BusEvent.requestFrom 0x4A 3, BusEvent.readBytes 3 0] :=
  ⟨⟨rfl, rfl⟩,
    (readAlertLimits_fail_fast ⟨⟨[], [], [], []⟩, 0x4A⟩ 7 [] [] rfl rfl).1 (by decide)⟩

/-- C15: `setAlertLimitsHigh(set, clear)` and `setAlertLimitsLow(set, clear)`
write the set register first (command `0x611D` / `0x6100`), then the clear
register (`0x6116` / `0x610B`), each command followed by the 2-byte payload
`[(v >> 15) mod 256, (v >> 7) mod 256]`, and they fail fast: when the bus
does not take the set-register write in full (`n1`, `n2` are the byte counts
it took), the function returns false and the trace ends after that one
transaction; otherwise the clear-register write follows and the flag
returned says whether it was taken in full (`n3`, `n4`). -/
theorem setAlertLimits_fail_fast (self : STS3x) (set clear : Nat) :
    (∃ ok self' n1 n2,
      setAlertLimitsHigh self set clear = some (ok, self') ∧
      (¬ (n1 = 2 ∧ n2 = 2) →
        ok = false ∧
        self'._pI2cBus.trace = self._pI2cBus.trace ++
          [BusEvent.beginTransmission self._i2c_addr,
           BusEvent.write [0x61, 0x1D] n1,
           BusEvent.write [(set >>> 15) % 256, (set >>> 7) % 256] n2,
           BusEvent.endTransmission]) ∧
      ((n1 = 2 ∧ n2 = 2) →
        ∃ n3 n4,
          (ok = true ↔ n3 = 2 ∧ n4 = 2) ∧
          self'._pI2cBus.trace = self._pI2cBus.trace ++
            [BusEvent.beginTransmission self._i2c_addr,
             BusEvent.write [0x61, 0x1D] n1,
             BusEvent.write [(set >>> 15) % 256, (set >>> 7) % 256] n2,
             BusEvent.endTransmission,
             BusEvent.beginTransmission self._i2c_addr,
             BusEvent.write [0x61, 0x16] n3,
             BusEvent.write [(clear >>> 15) % 256, (clear >>> 7) % 256] n4,
             BusEvent.endTransmission])) ∧
    (∃ ok self' n1 n2,
      setAlertLimitsLow self set clear = some (ok, self') ∧
      (¬ (n1 = 2 ∧ n2 = 2) →
        ok = false ∧
        self'._pI2cBus.trace = self._pI2cBus.trace ++
          [BusEvent.beginTransmission self._i2c_addr,
           BusEvent.write [0x61, 0x00] n1,
           BusEvent.write [(set >>> 15) % 256, (set >>> 7) % 256] n2,
           BusEvent.endTransmission]) ∧
      ((n1 = 2 ∧ n2 = 2) →
        ∃ n3 n4,
          (ok = true ↔ n3 = 2 ∧ n4 = 2) ∧
          self'._pI2cBus.trace = self._pI2cBus.trace ++
            [BusEvent.beginTransmission self._i2c_addr,
             BusEvent.write [0x61, 0x00] n1,
             BusEvent.write [(set >>> 15) % 256, (set >>> 7) % 256] n2,
             BusEvent.endTransmission,
             BusEvent.beginTransmission self._i2c_addr,
             BusEvent.write [0x61, 0x0B] n3,
             BusEvent.write [(clear >>> 15) % 256, (clear >>> 7) % 256] n4,
             BusEvent.endTransmission])) := by
  have e1 : (24861 &&& 255) % 256 = 29 := by decide
  have e2 : (24854 &&& 255) % 256 = 22 := by decide
  have e3 : (24832 &&& 255) % 256 = 0 := by decide
  have e4 : (24843 &&& 255) % 256 = 11 := by decide
  refine ⟨?_, ?_⟩
  · have h := setAlertLimitsHigh_eq self set clear
    cases hok : commandDataOk self [(set >>> 15) % 256, (set >>> 7) % 256]
    · rw [hok] at h
      refine ⟨_, _, self._pI2cBus.taken 2,
        ({ self._pI2cBus with accepted := self._pI2cBus.accepted.tail } : TwoWire).taken 2,
        h, ?_, ?_⟩
      · intro _
        refine ⟨rfl, ?_⟩
        simp [afterCommandData, CMD_WRITE_ALERT_LIMIT_HIGH_SET, e1]
      · intro hfull
        exfalso
        simp [commandDataOk, hfull.1, hfull.2] at hok
    · rw [hok, if_pos rfl] at h
      refine ⟨_, _, self._pI2cBus.taken 2,
        ({ self._pI2cBus with accepted := self._pI2cBus.accepted.tail } : TwoWire).taken 2,
        h, ?_, ?_⟩
      · intro hshort
        exfalso
        apply hshort
        simpa [commandDataOk] using hok
      · intro _
        refine ⟨({ self._pI2cBus with accepted := self._pI2cBus.accepted.tail.tail } :
            TwoWire).taken 2,
          ({ self._pI2cBus with accepted := self._pI2cBus.accepted.tail.tail.tail } :
            TwoWire).taken 2, ?_, ?_⟩
        · simp [commandDataOk, afterCommandData, TwoWire.taken]
        · simp [afterCommandData, TwoWire.taken, CMD_WRITE_ALERT_LIMIT_HIGH_SET,
            CMD_WRITE_ALERT_LIMIT_HIGH_CLEAR, e1, e2]
  · have h := setAlertLimitsLow_eq self set clear
    cases hok : commandDataOk self [(set >>> 15) % 256, (set >>> 7) % 256]
    · rw [hok] at h
      refine ⟨_, _, self._pI2cBus.taken 2,
        ({ self._pI2cBus with accepted := self._pI2cBus.accepted.tail } : TwoWire).taken 2,
        h, ?_, ?_⟩
      · intro _
        refine ⟨rfl, ?_⟩
        simp [afterCommandData, CMD_WRITE_ALERT_LIMIT_LOW_SET, e3]
      · intro hfull
        exfalso
        simp [commandDataOk, hfull.1, hfull.2] at hok
    · rw [hok, if_pos rfl] at h
      refine ⟨_, _, self._pI2cBus.taken 2,
        ({ self._pI2cBus with accepted := self._pI2cBus.accepted.tail } : TwoWire).taken 2,
        h, ?_, ?_⟩
      · intro hshort
        exfalso
        apply hshort
        simpa [commandDataOk] using hok
      · intro _
        refine ⟨({ self._pI2cBus with accepted := self._pI2cBus.accepted.tail.tail } :
            TwoWire).taken 2,
          ({ self._pI2cBus with accepted := self._pI2cBus.accepted.tail.tail.tail } :
            TwoWire).taken 2, ?_, ?_⟩
        · simp [commandDataOk, afterCommandData, TwoWire.taken]
        · simp [afterCommandData, TwoWire.taken, CMD_WRITE_ALERT_LIMIT_LOW_SET,
            CMD_WRITE_ALERT_LIMIT_LOW_CLEAR, e3, e4]

theorem frameValid_three (b0 b1 c : Nat) :
    frameValid [b0, b1, c] 3 = true ↔ crc8 [b0, b1] 2 = some c := by
  rw [frameValid_iff, crc8_eq_spec_take _ _ (by simp), crc8_eq_spec_take _ _ (by simp)]
  simp

/-- C16: the raw accessors `readTempRaw(repeatability)` and `fetchTempRaw()`
drop the success flag.  When the 3 bytes `[b0, b1, c]` are read they return
the big-endian word `(b0 << 8) | b1` whatever `c` is, so the same value for
a wrong checksum byte (where the validated read reports false) as for the
right one; when no byte is received they return 0, the content of the
zero-initialised buffer. -/
theorem rawAccessors_discard_flag (self : STS3x) (repeatability : Repeatability)
    (r : List Nat) (hr : self._pI2cBus.responses.headD [] = r) :
    (∀ b0 b1 c, b0 < 256 → b1 < 256 → r = [b0, b1, c] →
      (∃ ok v self', readTempRaw self repeatability = some (ok, v, self') ∧
        (ok = true ↔ crc8 [b0, b1] 2 = some c) ∧
        readTempRaw16 self repeatability = some (b0 <<< 8 ||| b1, self')) ∧
      (∃ ok v self', fetchTempRaw self = some (ok, v, self') ∧
        (ok = true ↔ crc8 [b0, b1] 2 = some c) ∧
        fetchTempRaw16 self = some (b0 <<< 8 ||| b1, self'))) ∧
    (r = [] →
      (∃ self', readTempRaw16 self repeatability = some (0, self')) ∧
      (∃ self', fetchTempRaw16 self = some (0, self'))) := by
  have hraw := readTempRaw_eq self repeatability r hr
  have hfetch := fetchTempRaw_eq self r hr
  constructor
  · intro b0 b1 c h0 h1 hrb
    subst hrb
    have hw := word16_of_bytes b0 b1 h0 h1
    simp only [List.getD_cons_zero, List.getD_cons_succ] at hraw hfetch
    rw [hw] at hraw hfetch
    exact ⟨⟨_, _, _, hraw, frameValid_three b0 b1 c, (readTemp_post self _ _ _ _ hraw).2⟩,
      ⟨_, _, _, hfetch, frameValid_three b0 b1 c, (fetchTemp_post self _ _ _ hfetch).2⟩⟩
  · intro hnil
    subst hnil
    exact ⟨⟨_, (readTemp_post self _ _ _ _ hraw).2⟩, ⟨_, (fetchTemp_post self _ _ _ hfetch).2⟩⟩

/-- Witness of C16: the device answers `[0xBE, 0xEF, 0x00]`, whose checksum
byte is wrong (`crc8([0xBE, 0xEF]) = 0x92`); the validated read reports
false and the raw accessor returns `0xBEEF`. -/
theorem rawAccessors_discard_flag_witness :
    (⟨⟨[], [[0xBE, 0xEF, 0x00]], [], []⟩, 0x4A⟩ : STS3x)._pI2cBus.responses.headD []
      = [0xBE, 0xEF, 0x00] ∧
    crc8 [0xBE, 0xEF] 2 = some 0x92 ∧
    (∃ v self', readTempRaw ⟨⟨[], [[0xBE, 0xEF, 0x00]], [], []⟩, 0x4A⟩ Repeatability.REP_HIGH
      = some (false, v, self')) ∧
    ∃ self', readTempRaw16 ⟨⟨[], [[0xBE, 0xEF, 0x00]], [], []⟩, 0x4A⟩ Repeatability.REP_HIGH
      = some (0xBEEF, self') := by
  obtain ⟨⟨ok, v, self', h1, h2, h3⟩, -⟩ :=
    (rawAccessors_discard_flag ⟨⟨[], [[0xBE, 0xEF, 0x00]], [], []⟩, 0x4A⟩
      Repeatability.REP_HIGH [0xBE, 0xEF, 0x00] rfl).1 0xBE 0xEF 0x00 (by decide) (by decide) rfl
  have hok : ok = false := by
    cases ok
    · rfl
    · exact absurd (h2.mp rfl) (by decide)
  exact ⟨rfl, by decide, ⟨v, self', hok ▸ h1⟩, ⟨self', h3⟩⟩

/-! ## Algebra of the checksum -/

theorem crc8SpecRound_lt (s : Nat) : crc8SpecRound s < 256 := by
  unfold crc8SpecRound
  split <;> exact Nat.mod_lt _ (by decide)

set_option maxRecDepth 100000 in
theorem crc8SpecRoundInv_round : ∀ s, s < 256 → crc8SpecRoundInv (crc8SpecRound s) = s := by
  decide

theorem crc8SpecRounds_lt (n s : Nat) (hs : s < 256) : crc8SpecRound^[n] s < 256 := by
  cases n with
  | zero => exact hs
  | succ n =>
    rw [Function.iterate_succ_apply']
    exact crc8SpecRound_lt _

theorem crc8SpecRounds_inj (n s t : Nat) (hs : s < 256) (ht : t < 256)
    (h : crc8SpecRound^[n] s = crc8SpecRound^[n] t) : s = t := by
  induction n with
  | zero => exact h
  | succ n ih =>
    rw [Function.iterate_succ_apply', Function.iterate_succ_apply'] at h
    apply ih
    have h2 := congrArg crc8SpecRoundInv h
    rw [crc8SpecRoundInv_round _ (crc8SpecRounds_lt n s hs),
      crc8SpecRoundInv_round _ (crc8SpecRounds_lt n t ht)] at h2
    exact h2

theorem crc8SpecByte_lt (s b : Nat) : crc8SpecByte s b < 256 :=
  crc8SpecRounds_lt 8 _ (Nat.mod_lt _ (by decide))

theorem crc8SpecByte_inj_state (s t b : Nat) (hs : s < 256) (ht : t < 256) (hb : b < 256)
    (h : crc8SpecByte s b = crc8SpecByte t b) : s = t := by
  have h1 := crc8SpecRounds_inj 8 _ _ (Nat.mod_lt _ (by decide)) (Nat.mod_lt _ (by decide)) h
  have hsb : s ^^^ b < 256 := @Nat.xor_lt_two_pow s b 8 hs hb
  have htb : t ^^^ b < 256 := @Nat.xor_lt_two_pow t b 8 ht hb
  rw [Nat.mod_eq_of_lt hsb, Nat.mod_eq_of_lt htb] at h1
  exact Nat.xor_left_inj.mp h1

theorem crc8SpecByte_inj_byte (s a b : Nat) (hs : s < 256) (ha : a < 256) (hb : b < 256)
    (h : crc8SpecByte s a = crc8SpecByte s b) : a = b := by
  have h1 := crc8SpecRounds_inj 8 _ _ (Nat.mod_lt _ (by decide)) (Nat.mod_lt _ (by decide)) h
  have hsa : s ^^^ a < 256 := @Nat.xor_lt_two_pow s a 8 hs ha
  have hsb : s ^^^ b < 256 := @Nat.xor_lt_two_pow s b 8 hs hb
  rw [Nat.mod_eq_of_lt hsa, Nat.mod_eq_of_lt hsb] at h1
  exact Nat.xor_right_inj.mp h1

theorem crc8Spec_foldl_lt (l : List Nat) (s : Nat) (hs : s < 256) :
    l.foldl crc8SpecByte s < 256 := by
  induction l generalizing s with
  | nil => exact hs
  | cons x l ih => exact ih _ (crc8SpecByte_lt s x)

theorem crc8Spec_foldl_inj (l : List Nat) (s t : Nat) (hs : s < 256) (ht : t < 256)
    (hl : ∀ x ∈ l, x < 256) (h : l.foldl crc8SpecByte s = l.foldl crc8SpecByte t) : s = t := by
  induction l generalizing s t with
  | nil => exact h
  | cons x l ih =>
    have hx : x < 256 := hl x (List.mem_cons_self x l)
    have h2 := ih _ _ (crc8SpecByte_lt s x) (crc8SpecByte_lt t x)
      (fun y hy => hl y (List.mem_cons_of_mem x hy)) h
    exact crc8SpecByte_inj_state s t x hs ht hx h2

theorem crc8Spec_single_byte (pre post : List Nat) (a b : Nat) (hab : a ≠ b)
    (ha : a < 256) (hb : b < 256) (hpost : ∀ x ∈ post, x < 256) :
    crc8Spec (pre ++ a :: post) ≠ crc8Spec (pre ++ b :: post) := by
  intro h
  simp only [crc8Spec, List.foldl_append, List.foldl_cons] at h
  have hpre : pre.foldl crc8SpecByte 0xFF < 256 := crc8Spec_foldl_lt pre _ (by decide)
  have h2 := crc8Spec_foldl_inj post _ _ (crc8SpecByte_lt _ a) (crc8SpecByte_lt _ b) hpost h
  exact hab (crc8SpecByte_inj_byte _ a b hpre ha hb h2)

theorem frameValid_corrupted (pre post : List Nat) (a b : Nat) (hab : a ≠ b)
    (ha : a < 256) (hb : b < 256) (hpost : ∀ x ∈ post, x < 256)
    (hgood : frameValid (pre ++ a :: post) (pre ++ a :: post).length = true) :
    frameValid (pre ++ b :: post) (pre ++ a :: post).length = false := by
  rw [Bool.eq_false_iff, ne_eq, frameValid_iff]
  rw [frameValid_iff] at hgood
  rintro ⟨-, hbad⟩
  obtain ⟨-, hgood⟩ := hgood
  rcases List.eq_nil_or_concat post with hnil | ⟨post', c, hpc⟩
  · subst hnil
    have hlen : (pre ++ [a]).length - 1 = pre.length := by simp
    rw [hlen, crc8_eq_spec_take _ _ (by simp), List.take_left', List.getElem?_append_right
      (le_refl _), Nat.sub_self] at hgood hbad
    · simp only [List.getElem?_cons_zero, Option.some.injEq] at hgood hbad
      exact hab (hgood.symm.trans hbad)
    · rfl
    · rfl
  · rw [List.concat_eq_append] at hpc
    subst hpc
    have hpost' : ∀ x ∈ post', x < 256 := fun x hx => hpost x (List.mem_append_left _ hx)
    have hga : pre ++ a :: (post' ++ [c]) = (pre ++ a :: post') ++ [c] := by simp
    have hgb : pre ++ b :: (post' ++ [c]) = (pre ++ b :: post') ++ [c] := by simp
    have hlena : ((pre ++ a :: post') ++ [c]).length - 1 = (pre ++ a :: post').length := by
      simp
    have hlenb : (pre ++ a :: post').length = (pre ++ b :: post').length := by simp
    rw [hga, hlena] at hgood
    rw [hga, hgb, hlena] at hbad
    rw [crc8_eq_spec_take _ _ (by simp), List.take_left',
      List.getElem?_append_right (le_refl _), Nat.sub_self] at hgood
    rw [hlenb, crc8_eq_spec_take _ _ (by simp), List.take_left',
      List.getElem?_append_right (le_refl _), Nat.sub_self] at hbad
    · simp only [List.getElem?_cons_zero, Option.some.injEq] at hgood hbad
      exact crc8Spec_single_byte pre post' a b hab ha hb hpost' (hgood.trans hbad.symm)
    · rfl
    · rfl

/-- C17: two byte sequences that agree everywhere except at one position
(`a` against `b`, both bytes, `a ≠ b`) have different `crc8` values, in
particular when `b` is `a` with one bit flipped; consequently, when the
frame `pre ++ a :: post` is valid (its last byte is the `crc8` of the bytes
before it) and arrives with that one byte, data or checksum, changed to `b`,
`queryCommand` rejects it. -/
theorem crc8_detects_single_byte_error (pre post : List Nat) (a b : Nat) (hab : a ≠ b)
    (ha : a < 256) (hb : b < 256) (hpost : ∀ x ∈ post, x < 256) :
    crc8 (pre ++ a :: post) (pre ++ a :: post).length
      ≠ crc8 (pre ++ b :: post) (pre ++ b :: post).length ∧
    (∀ k, k < 8 →
      crc8 (pre ++ (a ^^^ 2 ^ k) :: post) (pre ++ (a ^^^ 2 ^ k) :: post).length
        ≠ crc8 (pre ++ a :: post) (pre ++ a :: post).length) ∧
    (crc8 (pre ++ a :: post) ((pre ++ a :: post).length - 1)
        = (pre ++ a :: post)[(pre ++ a :: post).length - 1]? →
      ∀ (self : STS3x) (command delayus : Nat) (result : List Nat),
        self._pI2cBus.responses.headD [] = pre ++ b :: post →
        (pre ++ a :: post).length ≤ result.length →
        ∃ buf self',
          queryCommand self command result (pre ++ a :: post).length delayus
            = some (false, buf, self')) := by
  refine ⟨?_, ?_, ?_⟩
  · rw [crc8_eq_spec_take _ _ (le_refl _), crc8_eq_spec_take _ _ (le_refl _),
      List.take_length, List.take_length]
    intro h
    exact crc8Spec_single_byte pre post a b hab ha hb hpost (Option.some.inj h)
  · intro k hk
    have hpow : 2 ^ k < 2 ^ 8 := Nat.pow_lt_pow_right (by decide) hk
    have hflip : a ^^^ 2 ^ k < 256 := @Nat.xor_lt_two_pow a (2 ^ k) 8 ha hpow
    have hne : a ^^^ 2 ^ k ≠ a := by
      intro h
      have h2 : a ^^^ 2 ^ k = a ^^^ 0 := by rw [h, Nat.xor_zero]
      have h3 := Nat.xor_right_inj.mp h2
      exact absurd h3 (Nat.pos_iff_ne_zero.mp (Nat.pow_pos (by decide)))
    rw [crc8_eq_spec_take _ _ (le_refl _), crc8_eq_spec_take _ _ (le_refl _),
      List.take_length, List.take_length]
    intro h
    exact crc8Spec_single_byte pre post _ a hne hflip ha hpost (Option.some.inj h)
  · intro hgood self command delayus result hresp hbuf
    have hv : frameValid (pre ++ a :: post) (pre ++ a :: post).length = true :=
      (frameValid_iff _ _).mpr ⟨le_refl _, hgood⟩
    have hbad := frameValid_corrupted pre post a b hab ha hb hpost hv
    have hq := queryCommand_eq self command result (pre ++ a :: post).length delayus
      (by simp; omega) hbuf
    rw [hresp, hbad] at hq
    exact ⟨_, _, hq⟩

/-- Witness of C17: the valid frame `[0xBE, 0xEF, 0x92]` arrives with its
second byte changed to `0xEE`; the two data sequences have different
checksums and the query reports failure. -/
theorem crc8_detects_single_byte_error_witness :
    ((0xEF : Nat) ≠ 0xEE ∧ (0xEF : Nat) < 256 ∧ (0xEE : Nat) < 256 ∧
      ∀ x ∈ [0x92], x < 256) ∧
    ∃ buf self',
      queryCommand ⟨⟨[], [[0xBE, 0xEE, 0x92]], [], []⟩, 0x4A⟩ 0x2400 [0, 0, 0] 3 15000
        = some (false, buf, self') :=
  ⟨⟨by decide, by decide, by decide, by decide⟩,
    (crc8_detects_single_byte_error [0xBE] [0x92] 0xEF 0xEE (by decide) (by decide)
      (by decide) (by decide)).2.2 (by decide) ⟨⟨[], [[0xBE, 0xEE, 0x92]], [], []⟩, 0x4A⟩
      0x2400 15000 [0, 0, 0] rfl (by decide)⟩

/-- C18: for every byte sequence `msg`, the checksum of `msg` followed by
its own checksum is 0: `crc8(msg ++ [crc8(msg)]) = 0`. -/
theorem crc8_residue (msg : List Nat) :
    ∃ c, crc8 msg msg.length = some c ∧ crc8 (msg ++ [c]) (msg ++ [c]).length = some 0 := by
  refine ⟨crc8Spec msg, ?_, ?_⟩
  · rw [crc8_eq_spec_take _ _ (le_refl _), List.take_length]
  · rw [crc8_eq_spec_take _ _ (le_refl _), List.take_length]
    simp only [crc8Spec, List.foldl_append, List.foldl_cons, List.foldl_nil]
    rw [crc8SpecByte, Nat.xor_self]
    decide

theorem alertLimit_decode_closed (b0 b1 : Nat) (h1 : b1 < 256) :
    (b0 <<< 15 ||| b1 <<< 7) % 2 ^ 16 = (b0 % 2) * 32768 + b1 * 128 := by
  have hlt : b1 <<< 7 < 2 ^ 15 := by
    rw [Nat.shiftLeft_eq]; omega
  have hor : 2 ^ 15 * b0 + b1 <<< 7 = 2 ^ 15 * b0 ||| b1 <<< 7 := Nat.mul_add_lt_is_or hlt b0
  rw [Nat.shiftLeft_eq b0 15, Nat.mul_comm b0 (2 ^ 15), ← hor, Nat.shiftLeft_eq]
  omega

theorem readAlertLimits_set (self : STS3x) (entry b0 b1 c : Nat) (rest : List (List Nat))
    (hresp : self._pI2cBus.responses = [b0, b1, c] :: rest) :
    (∃ ok cl self', readAlertLimitsHigh self entry
      = some (ok, (b0 <<< 15 ||| b1 <<< 7) % 2 ^ 16, cl, self')) ∧
    (∃ ok cl self', readAlertLimitsLow self entry
      = some (ok, (b0 <<< 15 ||| b1 <<< 7) % 2 ^ 16, cl, self')) := by
  have hr1 : self._pI2cBus.responses.headD [] = [b0, b1, c] := by rw [hresp]; rfl
  have hH := readAlertLimitsHigh_eq self entry _ _ hr1 rfl
  have hL := readAlertLimitsLow_eq self entry _ _ hr1 rfl
  simp only [List.getD_cons_zero, List.getD_cons_succ] at hH hL
  constructor
  · cases hv : frameValid [b0, b1, c] 3
    · rw [hv] at hH
      exact ⟨_, _, _, hH⟩
    · rw [hv, if_pos rfl] at hH
      exact ⟨_, _, _, hH⟩
  · cases hv : frameValid [b0, b1, c] 3
    · rw [hv] at hL
      exact ⟨_, _, _, hL⟩
    · rw [hv, if_pos rfl] at hL
      exact ⟨_, _, _, hL⟩

/-- C19: the alert-limit codec keeps bits 15 to 7 of a 16-bit value `x`.
Decoding the payload bytes `[(x >> 15) mod 256, (x >> 7) mod 256]` as
`readAlertLimitsHigh` / `readAlertLimitsLow` do, by
`((b0 << 15) | (b1 << 7)) mod 65536`, yields `x AND 0xFF80`; this is `x`
exactly when the low 7 bits of `x` are zero; the round trip is idempotent
(`x AND 0xFF80` has the same payload as `x` and is mapped to itself); and
the decoded value is `(b0 mod 2) * 32768 + b1 * 128`, so it depends on the
first byte through its bit 0 only and on the whole second byte. -/
theorem alertLimit_codec_top_bits (x : Nat) (hx : x < 65536) :
    (∀ (self : STS3x) (entry c : Nat) (rest : List (List Nat)),
      self._pI2cBus.responses = [(x >>> 15) % 256, (x >>> 7) % 256, c] :: rest →
      (∃ ok cl self', readAlertLimitsHigh self entry = some (ok, x &&& 0xFF80, cl, self')) ∧
      (∃ ok cl self', readAlertLimitsLow self entry = some (ok, x &&& 0xFF80, cl, self'))) ∧
    (x &&& 0xFF80 = x ↔ x % 128 = 0) ∧
    ([((x &&& 0xFF80) >>> 15) % 256, ((x &&& 0xFF80) >>> 7) % 256]
        = [(x >>> 15) % 256, (x >>> 7) % 256] ∧
      (x &&& 0xFF80) &&& 0xFF80 = x &&& 0xFF80) ∧
    (∀ (self : STS3x) (entry b0 b1 c : Nat) (rest : List (List Nat)),
      b1 < 256 → self._pI2cBus.responses = [b0, b1, c] :: rest →
      (∃ ok cl self', readAlertLimitsHigh self entry
        = some (ok, (b0 % 2) * 32768 + b1 * 128, cl, self')) ∧
      (∃ ok cl self', readAlertLimitsLow self entry
        = some (ok, (b0 % 2) * 32768 + b1 * 128, cl, self'))) ∧
    (∀ b0 b0' b1 b1', b1 < 256 → b1' < 256 →
      ((b0 % 2) * 32768 + b1 * 128 = (b0' % 2) * 32768 + b1' * 128
        ↔ b0 % 2 = b0' % 2 ∧ b1 = b1')) := by
  have hmask : x &&& 0xFF80 = x / 128 * 128 := by
    rw [and_FF80_eq, Nat.mod_eq_of_lt hx]
  refine ⟨?_, ?_, ⟨?_, ?_⟩, ?_, ?_⟩
  · intro self entry c rest hresp
    have h := readAlertLimits_set self entry _ _ c rest hresp
    rw [alertLimit_decode_encode x hx] at h
    exact h
  · rw [hmask]; omega
  · rw [hmask, Nat.shiftRight_eq_div_pow, Nat.shiftRight_eq_div_pow,
      Nat.shiftRight_eq_div_pow, Nat.shiftRight_eq_div_pow]
    have e1 : x / 128 * 128 / 2 ^ 15 % 256 = x / 2 ^ 15 % 256 := by omega
    have e2 : x / 128 * 128 / 2 ^ 7 % 256 = x / 2 ^ 7 % 256 := by omega
    rw [e1, e2]
  · rw [Nat.and_assoc, Nat.and_self]
  · intro self entry b0 b1 c rest h1 hresp
    have h := readAlertLimits_set self entry b0 b1 c rest hresp
    rw [alertLimit_decode_closed b0 b1 h1] at h
    exact h
  · intro b0 b0' b1 b1' h1 h1'
    constructor
    · intro h
      constructor <;> omega
    · rintro ⟨h, rfl⟩
      rw [h]

/-- Witness of C19: `x = 0x1234`, whose payload is `[0x00, 0x24]`, is read
back as `0x1200`. -/
theorem alertLimit_codec_top_bits_witness :
    (0x1234 : Nat) < 65536 ∧
    ∃ ok cl self', readAlertLimitsHigh ⟨⟨[], [[0x00, 0x24, 0xC3]], [], []⟩, 0x4A⟩ 0
      = some (ok, 0x1200, cl, self') :=
  ⟨by decide,
    ((alertLimit_codec_top_bits 0x1234 (by decide)).1 ⟨⟨[], [[0x00, 0x24, 0xC3]], [], []⟩, 0x4A⟩
      0 0xC3 [] rfl).1⟩

/-- C20: `queryCommand` ignores the outcome of writing the command.  Two
runs that differ only in the write script of the bus (so in whether the
command write was short or complete) and receive the same response return
the same flag and the same buffer; for instance, on a bus that takes none of
the two command bytes `writeCommand` returns false, yet `queryCommand`
reports success on the valid frame `[0xBE, 0xEF, 0x92]`. -/
theorem queryCommand_ignores_write_outcome (accepted accepted' : List Nat)
    (responses : List (List Nat)) (rx : List Nat) (trace : List BusEvent)
    (addr command len delayus : Nat) (result : List Nat)
    (hlen : 1 ≤ len) (hbuf : len ≤ result.length) :
    (∃ ok buf self1 self2,
      queryCommand ⟨⟨accepted, responses, rx, trace⟩, addr⟩ command result len delayus
        = some (ok, buf, self1) ∧
      queryCommand ⟨⟨accepted', responses, rx, trace⟩, addr⟩ command result len delayus
        = some (ok, buf, self2)) ∧
    (writeCommand ⟨⟨[0], [[0xBE, 0xEF, 0x92]], [], []⟩, 0x4A⟩ 0x2400 [] 0).map (fun x => x.1)
      = some false ∧
    (writeCommand ⟨⟨[], [[0xBE, 0xEF, 0x92]], [], []⟩, 0x4A⟩ 0x2400 [] 0).map (fun x => x.1)
      = some true ∧
    (queryCommand ⟨⟨[0], [[0xBE, 0xEF, 0x92]], [], []⟩, 0x4A⟩ 0x2400 [0, 0, 0] 3 15000).map
        (fun x => (x.1, x.2.1)) = some (true, [0xBE, 0xEF, 0x92]) ∧
    (queryCommand ⟨⟨[], [[0xBE, 0xEF, 0x92]], [], []⟩, 0x4A⟩ 0x2400 [0, 0, 0] 3 15000).map
        (fun x => (x.1, x.2.1)) = some (true, [0xBE, 0xEF, 0x92]) := by
  refine ⟨⟨_, _, _, _,
    queryCommand_eq ⟨⟨accepted, responses, rx, trace⟩, addr⟩ command result len delayus hlen hbuf,
    queryCommand_eq ⟨⟨accepted', responses, rx, trace⟩, addr⟩ command result len delayus hlen
      hbuf⟩, by decide, by decide, by decide, by decide⟩

/-- Witness of C20: a read of 3 bytes into a 3-byte buffer, once on a bus
that takes no command byte and once on a bus that takes both. -/
theorem queryCommand_ignores_write_outcome_witness :
    (1 ≤ 3 ∧ 3 ≤ [0, 0, 0].length) ∧
    ∃ ok buf self1 self2,
      queryCommand ⟨⟨[0], [[0xBE, 0xEF, 0x92]], [], []⟩, 0x4A⟩ 0x2400 [0, 0, 0] 3 15000
        = some (ok, buf, self1) ∧
      queryCommand ⟨⟨[], [[0xBE, 0xEF, 0x92]], [], []⟩, 0x4A⟩ 0x2400 [0, 0, 0] 3 15000
        = some (ok, buf, self2) :=
  ⟨⟨by decide, by decide⟩,
    (queryCommand_ignores_write_outcome [0] [] [[0xBE, 0xEF, 0x92]] [] [] 0x4A 0x2400 3 15000
      [0, 0, 0] (by decide) (by decide)).1⟩

end STS3x
